import Mathlib

/-!
TM1637 asynchronous driver: frame queue, protocol state machine, facade.

A shallow embedding of `Core/TM1637.c` / `Core/TM1637.h`.

* `uint8_t` values are natural numbers; where the C arithmetic can wrap, the
  wrap is written out as `% 256`.
* The file-scope statics (`tx_buffer`, `slave_respond`, `current_state`,
  `current_brightness`) and the function-scope statics of `processState`
  (`sub_state`, `tx_data`, `tx_ptr`) are the fields of one record, `Driver`.
* `HAL_GPIO_WritePin` / `HAL_GPIO_ReadPin` become line events returned by the
  functions that perform them; the value read from the pin is an argument of
  `processState`.
* `HAL_TIM_Base_Start_IT` / `HAL_TIM_Base_Stop_IT` set and clear the field
  `timer_running`.
* C arrays are lists; an index outside the array (undefined behaviour in C)
  reads a zero frame / zero byte and writes nothing.
-/

namespace TM1637

/-! ## Constants of `TM1637.h` -/

def BUFFER_SIZE : Nat := 50
def TX_SIZE : Nat := 7

def WRITE_DATA : Nat := 0x40
def READ_DATA : Nat := 0x42
def ADDRESS_AI : Nat := 0x40
def FIXED_ADDRESS : Nat := 0x44
def NORMAL_MODE : Nat := 0x40
def TEST_MODE : Nat := 0x48

def ADDRESS_00H : Nat := 0xC0

def BRIGHTNESS_ON : Nat := 0x88
def BRIGHTNESS_OFF : Nat := 0x80
def BRIGHTNESS_5 : Nat := 0x85

/-! ## Data model -/

/-- The enum `TM1637_State`. -/
inductive TM1637_State where
  | IDLE
  | START
  | WRITE_BIT
  | READ_READY
  | STOP
  | DONE
deriving DecidableEq, Repr

/-- The struct `TM1637_Tx`: `tx_frame` is the array `uint8_t tx_frame[TX_SIZE]`. -/
structure TM1637_Tx where
  tx_frame : List Nat
  tx_len : Nat
deriving DecidableEq, Repr

/-- The struct `TM1637_Buffer`: `buffer` is the array `TM1637_Tx buffer[BUFFER_SIZE]`. -/
structure TM1637_Buffer where
  buffer : List TM1637_Tx
  head : Nat
  tail : Nat
deriving DecidableEq, Repr

/-- The value of `TM1637_Tx data = {0}` and of a zero-initialised static frame. -/
def zeroTx : TM1637_Tx := { tx_frame := List.replicate TX_SIZE 0, tx_len := 0 }

/-- The bytes a frame carries: the first `tx_len` bytes of `tx_frame`. -/
def payload (t : TM1637_Tx) : List Nat := t.tx_frame.take t.tx_len

/-! ## Frame queue -/

/-- The function `writeBuffer` (TM1637.c, lines 186-198): result and buffer afterwards. -/
def writeBuffer (buffer : TM1637_Buffer) (data : TM1637_Tx) : Bool × TM1637_Buffer :=
  let temp_head := ((buffer.head + 1) % BUFFER_SIZE) % 256
  if temp_head = buffer.tail then
    (false, buffer)
  else
    (true, { buffer with buffer := buffer.buffer.set buffer.head data, head := temp_head })

/-- The function `readBuffer` (TM1637.c, lines 206-218): result, buffer afterwards and the
destination frame afterwards. -/
def readBuffer (buffer : TM1637_Buffer) (data : TM1637_Tx) :
    Bool × TM1637_Buffer × TM1637_Tx :=
  if buffer.tail = buffer.head then
    (false, buffer, data)
  else
    let data1 := buffer.buffer.getD buffer.tail zeroTx
    let tail1 := (buffer.tail + 1) % 256
    (true, { buffer with tail := tail1 % BUFFER_SIZE }, data1)

/-- The function `isBufferEmpty` (TM1637.c, lines 220-223). -/
def isBufferEmpty (buffer : TM1637_Buffer) : Bool :=
  decide (buffer.tail = buffer.head)

/-- One call on the queue: `writeBuffer` with a frame, or `readBuffer` with a destination. -/
inductive QueueOp where
  | write (data : TM1637_Tx)
  | read (dest : TM1637_Tx)
deriving DecidableEq, Repr

/-- What a queue call gave back: the flag, and for a read the destination afterwards. -/
inductive QueueRes where
  | wrote (ok : Bool)
  | readRes (ok : Bool) (data : TM1637_Tx)
deriving DecidableEq, Repr

/-- Run a sequence of queue calls, collecting what each returned. -/
def runQueue : List QueueOp → TM1637_Buffer → List QueueRes × TM1637_Buffer
  | [], b => ([], b)
  | QueueOp.write data :: ops, b =>
    let r := writeBuffer b data
    let rest := runQueue ops r.2
    (QueueRes.wrote r.1 :: rest.1, rest.2)
  | QueueOp.read dest :: ops, b =>
    let r := readBuffer b dest
    let rest := runQueue ops r.2.1
    (QueueRes.readRes r.1 r.2.2 :: rest.1, rest.2)

/-- The frames passed to `writeBuffer`, in call order. -/
def writtenFrames : List QueueOp → List TM1637_Tx
  | [] => []
  | QueueOp.write data :: ops => data :: writtenFrames ops
  | QueueOp.read _ :: ops => writtenFrames ops

/-- The frames yielded by the successful `readBuffer` calls, in call order. -/
def readFrames : List QueueRes → List TM1637_Tx
  | [] => []
  | QueueRes.readRes true data :: rs => data :: readFrames rs
  | _ :: rs => readFrames rs

/-- The flags returned by the `writeBuffer` calls, in call order. -/
def writeFlags : List QueueRes → List Bool
  | [] => []
  | QueueRes.wrote ok :: rs => ok :: writeFlags rs
  | _ :: rs => writeFlags rs

/-- Frames asked to be held at once: `n` outstanding before the calls, one more per
`writeBuffer`, one fewer per `readBuffer` that finds a frame. -/
def outstanding : List QueueOp → Nat → Nat
  | [], n => n
  | QueueOp.write _ :: ops, n => outstanding ops (n + 1)
  | QueueOp.read _ :: ops, n => outstanding ops (n - 1)

/-- Number of frames waiting in the queue. -/
def queueCount (b : TM1637_Buffer) : Nat :=
  (b.head + BUFFER_SIZE - b.tail) % BUFFER_SIZE

/-- The frames waiting in the queue, oldest (the one at `tail`) first. -/
def queueFrames (b : TM1637_Buffer) : List TM1637_Tx :=
  (List.range (queueCount b)).map (fun k => b.buffer.getD ((b.tail + k) % BUFFER_SIZE) zeroTx)

/-! ## Lines, driver state -/

/-- The two lines of the bus: `clk_port`/`clk_pin` and `dio_port`/`dio_pin`. -/
inductive Line where
  | clock
  | data
deriving DecidableEq, Repr

/-- One hardware action on a line: `HAL_GPIO_WritePin` (`high` is `GPIO_PIN_SET`) or
`HAL_GPIO_ReadPin` on the data line (`high` is the value read). -/
inductive LineEvent where
  | write (line : Line) (high : Bool)
  | sample (high : Bool)
deriving DecidableEq, Repr

/-- The statics of `TM1637.c`: the file-scope `tx_buffer`, `slave_respond`, `current_state`,
`current_brightness`; the statics `sub_state`, `tx_data`, `tx_ptr` of `processState`
(`tx_ptr` as an index into `tx_data.tx_frame`); and whether the timer `config.htim` is
running in interrupt mode. -/
structure Driver where
  tx_buffer : TM1637_Buffer
  slave_respond : Nat
  current_state : TM1637_State
  current_brightness : Nat
  sub_state : Nat
  tx_data : TM1637_Tx
  tx_ptr : Nat
  timer_running : Bool
deriving DecidableEq, Repr

/-- The driver at start-up: zero-initialised statics, `current_state = TM1637_IDLE`,
`current_brightness = BRIGHTNESS_5`, `tx_ptr = tx_data.tx_frame`, timer not started. -/
def initDriver : Driver :=
  { tx_buffer := { buffer := List.replicate BUFFER_SIZE zeroTx, head := 0, tail := 0 }
    slave_respond := 0
    current_state := TM1637_State.IDLE
    current_brightness := BRIGHTNESS_5
    sub_state := 0
    tx_data := zeroTx
    tx_ptr := 0
    timer_running := false }

/-! ## Protocol state machine -/

/-- The function `writeBit` (TM1637.c, lines 229-237). -/
def writeBit (bit : Nat) : List LineEvent :=
  [LineEvent.write Line.clock false,
   LineEvent.write Line.data (decide (bit ≠ 0)),
   LineEvent.write Line.clock true]

/-- The function `processState` (TM1637.c, lines 244-346): one timer tick. `pin` is what
`HAL_GPIO_ReadPin` returns on the data line should this tick read it. -/
def processState (pin : Bool) (d : Driver) : Driver × List LineEvent :=
  match d.current_state with
  | TM1637_State.IDLE =>
    let r := readBuffer d.tx_buffer d.tx_data
    let d1 := { d with tx_buffer := r.2.1, tx_data := r.2.2 }
    if r.1 then
      ({ d1 with tx_ptr := 0, sub_state := 0, current_state := TM1637_State.START }, [])
    else
      (d1, [])
  | TM1637_State.START =>
    if d.sub_state = 0 then
      ({ d with sub_state := (d.sub_state + 1) % 256 },
        [LineEvent.write Line.data true, LineEvent.write Line.clock true])
    else if d.sub_state = 1 then
      ({ d with sub_state := (d.sub_state + 1) % 256 }, [LineEvent.write Line.data false])
    else
      ({ d with sub_state := 0, current_state := TM1637_State.WRITE_BIT },
        [LineEvent.write Line.clock false])
  | TM1637_State.WRITE_BIT =>
    if d.sub_state < 8 then
      ({ d with sub_state := (d.sub_state + 1) % 256 },
        writeBit ((d.tx_data.tx_frame.getD d.tx_ptr 0 >>> d.sub_state) &&& 1))
    else if d.sub_state = 8 then
      ({ d with sub_state := (d.sub_state + 1) % 256 },
        [LineEvent.write Line.clock false, LineEvent.write Line.data true])
    else
      ({ d with sub_state := 0, current_state := TM1637_State.READ_READY },
        [LineEvent.write Line.clock true])
  | TM1637_State.READ_READY =>
    if d.sub_state = 0 then
      ({ d with slave_respond := (d.slave_respond + (if pin then 1 else 0)) % 256,
                sub_state := (d.sub_state + 1) % 256 },
        [LineEvent.sample pin])
    else
      let d1 := { d with sub_state := 0 }
      if d1.tx_data.tx_len > 1 then
        ({ d1 with tx_data := { d1.tx_data with tx_len := d1.tx_data.tx_len - 1 },
                   tx_ptr := d1.tx_ptr + 1,
                   current_state := TM1637_State.WRITE_BIT },
          [LineEvent.write Line.clock false])
      else
        ({ d1 with current_state := TM1637_State.STOP }, [LineEvent.write Line.clock false])
  | TM1637_State.STOP =>
    if d.sub_state = 0 then
      ({ d with sub_state := (d.sub_state + 1) % 256 }, [LineEvent.write Line.clock false])
    else if d.sub_state = 1 then
      ({ d with sub_state := (d.sub_state + 1) % 256 }, [LineEvent.write Line.data false])
    else if d.sub_state = 2 then
      ({ d with sub_state := (d.sub_state + 1) % 256 }, [LineEvent.write Line.clock true])
    else
      ({ d with sub_state := 0, current_state := TM1637_State.DONE },
        [LineEvent.write Line.data true])
  | TM1637_State.DONE =>
    let d1 := { d with sub_state := 0, current_state := TM1637_State.IDLE }
    if isBufferEmpty d1.tx_buffer then
      ({ d1 with timer_running := false }, [])
    else
      (d1, [])

/-- Successive calls of `processState`: `n` timer ticks, the first at time `t`, where
`pin k` is the level `HAL_GPIO_ReadPin` finds on the data line at time `k`; with the line
events of all the ticks in order. -/
def ticks (pin : Nat → Bool) : Nat → Nat → Driver → Driver × List LineEvent
  | _, 0, d => (d, [])
  | t, n + 1, d =>
    match processState (pin t) d with
    | (d1, e1) =>
      match ticks pin (t + 1) n d1 with
      | (d2, e2) => (d2, e1 ++ e2)

/-! ## Driver facade -/

/-- The function `sendData` (TM1637.c, lines 168-178). -/
def sendData (d : Driver) (data : TM1637_Tx) : Bool × Driver :=
  let r := writeBuffer d.tx_buffer data
  let d1 := { d with tx_buffer := r.2 }
  if d1.current_state = TM1637_State.IDLE then
    (r.1, { d1 with current_state := TM1637_State.START, timer_running := true })
  else
    (r.1, d1)

/-- The function `TM1637_WriteByte` (TM1637.c, lines 142-149). Its local `tx_data` is not
initialised: `stack` is what that local holds on entry. -/
def TM1637_WriteByte (stack : TM1637_Tx) (data : Nat) (d : Driver) : Bool × Driver :=
  let tx_data := { stack with tx_frame := stack.tx_frame.set 0 data }
  let tx_data := { tx_data with tx_len := 1 }
  sendData d tx_data

/-- The loop of `TM1637_WriteDisplay` (lines 110-112), from index `i` for `n` more rounds. -/
def copySegments (segments : List Nat) : Nat → Nat → TM1637_Tx → TM1637_Tx
  | 0, _, data => data
  | n + 1, i, data =>
    copySegments segments n (i + 1)
      { data with tx_frame := data.tx_frame.set (i + 1) (segments.getD i 0) }

/-- The function `TM1637_WriteDisplay` (TM1637.c, lines 101-117). `stack` is the entry
content of the local of the `TM1637_WriteByte` call it makes. -/
def TM1637_WriteDisplay (stack : TM1637_Tx) (address : Nat) (segments : List Nat)
    (segments_length : Nat) (d : Driver) : Bool × Driver :=
  if segments_length ≥ TX_SIZE then
    (false, d)
  else
    let d1 := (TM1637_WriteByte stack (WRITE_DATA ||| ADDRESS_AI ||| NORMAL_MODE) d).2
    let data := { zeroTx with tx_frame := zeroTx.tx_frame.set 0 address }
    let data := copySegments segments segments_length 0 data
    let data := { data with tx_len := (segments_length + 1) % 256 }
    sendData d1 data

/-- The function `TM1637_WriteSegments` (TM1637.c, lines 125-135). -/
def TM1637_WriteSegments (stack : TM1637_Tx) (address segments : Nat) (d : Driver) :
    Bool × Driver :=
  let d1 := (TM1637_WriteByte stack (WRITE_DATA ||| FIXED_ADDRESS ||| NORMAL_MODE) d).2
  let data := { zeroTx with tx_frame := zeroTx.tx_frame.set 0 address }
  let data := { data with tx_frame := data.tx_frame.set 1 segments }
  let data := { data with tx_len := 2 }
  sendData d1 data

/-- The function `TM1637_DisplayOn` (TM1637.c, lines 66-70). -/
def TM1637_DisplayOn (stack1 stack2 : TM1637_Tx) (d : Driver) : Driver :=
  let d1 := (TM1637_WriteByte stack1 (WRITE_DATA ||| ADDRESS_AI ||| NORMAL_MODE) d).2
  (TM1637_WriteByte stack2 (BRIGHTNESS_ON ||| d1.current_brightness) d1).2

/-- The function `TM1637_DisplayOff` (TM1637.c, lines 72-76). -/
def TM1637_DisplayOff (stack1 stack2 : TM1637_Tx) (d : Driver) : Driver :=
  let d1 := (TM1637_WriteByte stack1 (WRITE_DATA ||| ADDRESS_AI ||| NORMAL_MODE) d).2
  (TM1637_WriteByte stack2 (BRIGHTNESS_OFF ||| d1.current_brightness) d1).2

/-- The function `TM1637_SetBrightness` (TM1637.c, lines 78-82). -/
def TM1637_SetBrightness (stack1 stack2 : TM1637_Tx) (brightness : Nat) (d : Driver) :
    Driver :=
  let d0 := { d with current_brightness := brightness }
  let d1 := (TM1637_WriteByte stack1 (WRITE_DATA ||| ADDRESS_AI ||| NORMAL_MODE) d0).2
  (TM1637_WriteByte stack2 (BRIGHTNESS_ON ||| brightness) d1).2

/-- The function `TM1637_GetAndClearResponse` (TM1637.c, lines 88-92). -/
def TM1637_GetAndClearResponse (d : Driver) : Bool × Driver :=
  let response := decide (d.slave_respond = 0)
  (response, { d with slave_respond := 0 })

/-! ## Runs of the whole driver -/

/-- What can happen to the driver between two reads of the acknowledgment status: a timer
period elapses (with the level the data line has then), or a caller makes a write call. -/
inductive Action where
  | tick (pin : Bool)
  | writeByte (stack : TM1637_Tx) (data : Nat)
  | writeSegments (stack : TM1637_Tx) (address segments : Nat)
  | writeDisplay (stack : TM1637_Tx) (address : Nat) (segments : List Nat)
      (segments_length : Nat)
  | setBrightness (stack1 stack2 : TM1637_Tx) (brightness : Nat)
  | displayOn (stack1 stack2 : TM1637_Tx)
  | displayOff (stack1 stack2 : TM1637_Tx)
deriving DecidableEq, Repr

/-- One action. The timer calls `HAL_TIM_PeriodElapsedCallback`, hence `processState`, only
while it is running. -/
def step (a : Action) (d : Driver) : Driver × List LineEvent :=
  match a with
  | Action.tick pin => if d.timer_running then processState pin d else (d, [])
  | Action.writeByte stack data => ((TM1637_WriteByte stack data d).2, [])
  | Action.writeSegments stack address segments =>
    ((TM1637_WriteSegments stack address segments d).2, [])
  | Action.writeDisplay stack address segments n =>
    ((TM1637_WriteDisplay stack address segments n d).2, [])
  | Action.setBrightness s1 s2 b => (TM1637_SetBrightness s1 s2 b d, [])
  | Action.displayOn s1 s2 => (TM1637_DisplayOn s1 s2 d, [])
  | Action.displayOff s1 s2 => (TM1637_DisplayOff s1 s2 d, [])

/-- A sequence of actions, with the line events of all of them in order. -/
def run : List Action → Driver → Driver × List LineEvent
  | [], d => (d, [])
  | a :: as, d =>
    match step a d with
    | (d1, e1) =>
      match run as d1 with
      | (d2, e2) => (d2, e1 ++ e2)

/-- The timer ticks at times `t`, `t + 1`, ..., `t + n - 1` as actions. -/
def tickActions (pin : Nat → Bool) : Nat → Nat → List Action
  | _, 0 => []
  | t, n + 1 => Action.tick (pin t) :: tickActions pin (t + 1) n

/-! ## What the device sees on the two lines -/

/-- A receiver on the bus: the levels of the two lines as far as the events seen so far
determine them, whether a frame is open, the bits latched for the byte in progress, the
bytes completed in the open frame, the frames closed so far, and how many start and stop
conditions occurred. -/
structure Wire where
  clock : Option Bool
  data : Option Bool
  inFrame : Bool
  bits : List Bool
  bytes : List Nat
  frames : List (List Nat)
  starts : Nat
  stops : Nat
deriving DecidableEq, Repr

/-- The byte made of bits received least-significant first. -/
def byteOfBits : List Bool → Nat
  | [] => 0
  | b :: bs => (if b then 1 else 0) + 2 * byteOfBits bs

/-- The receiver's reaction to one line event (wire-level protocol): data falling while the
clock is high is a start condition, which opens a frame; data rising while the clock is
high is a stop condition, which closes the open frame; inside a frame each rising clock
edge latches the data line, eight data bits and then the acknowledgment clock, which
completes the byte. -/
def observe (w : Wire) : LineEvent → Wire
  | LineEvent.write Line.clock high =>
    if w.clock = some false ∧ high = true ∧ w.inFrame = true then
      if w.bits.length < 8 then
        { w with clock := some high, bits := w.bits ++ [w.data.getD true] }
      else
        { w with clock := some high, bits := [], bytes := w.bytes ++ [byteOfBits w.bits] }
    else
      { w with clock := some high }
  | LineEvent.write Line.data high =>
    if w.clock = some true ∧ w.data = some true ∧ high = false then
      { w with data := some high, inFrame := true, bits := [], bytes := [],
               starts := w.starts + 1 }
    else if w.clock = some true ∧ w.data = some false ∧ high = true then
      if w.inFrame then
        { w with data := some high, inFrame := false, bits := [], bytes := [],
                 frames := w.frames ++ [w.bytes], stops := w.stops + 1 }
      else
        { w with data := some high, stops := w.stops + 1 }
    else
      { w with data := some high }
  | LineEvent.sample _ => w

/-- A receiver that has seen nothing yet. -/
def wire0 : Wire :=
  { clock := none, data := none, inFrame := false, bits := [], bytes := [], frames := [],
    starts := 0, stops := 0 }

/-- The receiver after a sequence of line events. -/
def observeAll (events : List LineEvent) : Wire := events.foldl observe wire0

/-- The frames a receiver gets from a sequence of line events. -/
def framesOnLine (events : List LineEvent) : List (List Nat) := (observeAll events).frames

/-- The values read from the data line, in order. -/
def samples : List LineEvent → List Bool
  | [] => []
  | LineEvent.sample v :: es => v :: samples es
  | _ :: es => samples es

/-- A caller writes the byte `0x40` and the timer then ticks 41 times with the data line
high: the acknowledgment is missed in every window. -/
def missRound : List Action :=
  Action.writeByte zeroTx 0x40 :: tickActions (fun _ => true) 0 41

/-- The round `missRound`, `n` times over. -/
def missRounds : Nat → List Action
  | 0 => []
  | n + 1 => missRound ++ missRounds n

/-- The driver is at rest: `Idle` at sub-step 0, queue empty and well formed, and the frame
last transmitted has at most one byte left. -/
def Quiet (d : Driver) : Prop :=
  d.current_state = TM1637_State.IDLE ∧ d.sub_state = 0 ∧
    d.tx_buffer.head = d.tx_buffer.tail ∧ d.tx_buffer.tail < BUFFER_SIZE ∧
    d.tx_buffer.buffer.length = BUFFER_SIZE ∧ d.tx_data.tx_len ≤ 1

/-! ## The line events the protocol prescribes -/

/-- Start condition: data high, clock high, data low, clock low. -/
def startEvents : List LineEvent :=
  [LineEvent.write Line.data true, LineEvent.write Line.clock true,
   LineEvent.write Line.data false, LineEvent.write Line.clock false]

/-- The bits `i`, `i + 1`, ... of a byte, `n` of them: clock low, data = bit, clock high. -/
def bitEventsFrom (byte : Nat) : Nat → Nat → List LineEvent
  | _, 0 => []
  | i, n + 1 =>
    [LineEvent.write Line.clock false, LineEvent.write Line.data (byte.testBit i),
     LineEvent.write Line.clock true] ++ bitEventsFrom byte (i + 1) n

/-- The eight bits of a byte, least-significant first. -/
def bitEvents (byte : Nat) : List LineEvent := bitEventsFrom byte 0 8

/-- Acknowledgment window: clock low, data released high, clock high, the sample, clock
low. -/
def ackEvents (v : Bool) : List LineEvent :=
  [LineEvent.write Line.clock false, LineEvent.write Line.data true,
   LineEvent.write Line.clock true, LineEvent.sample v, LineEvent.write Line.clock false]

/-- Stop condition: clock low, data low, clock high, data high. -/
def stopEvents : List LineEvent :=
  [LineEvent.write Line.clock false, LineEvent.write Line.data false,
   LineEvent.write Line.clock true, LineEvent.write Line.data true]

/-- The byte-and-acknowledgment cycles of the given bytes, twelve ticks each, the first
starting at time `t`; the sample of a cycle is taken at its eleventh tick. -/
def byteCycles (pin : Nat → Bool) : Nat → List Nat → List LineEvent
  | _, [] => []
  | t, b :: bs => bitEvents b ++ ackEvents (pin (t + 10)) ++ byteCycles pin (t + 12) bs

/-- The line events of one frame whose `Idle` tick is at time `t`: start condition, the
byte cycles, stop condition. -/
def frameEvents (pin : Nat → Bool) (t : Nat) (bytes : List Nat) : List LineEvent :=
  startEvents ++ byteCycles pin (t + 4) bytes ++ stopEvents

/-- How many of the samples of `n` byte cycles, the first starting at time `t`, are high. -/
def ackCount (pin : Nat → Bool) : Nat → Nat → Nat
  | _, 0 => 0
  | t, n + 1 => (if pin (t + 10) then 1 else 0) + ackCount pin (t + 12) n

/-- The buffer `b` holds exactly the frames `q`, oldest first, between `tail` and `head`. -/
def Holds (b : TM1637_Buffer) (q : List TM1637_Tx) : Prop :=
  b.buffer.length = BUFFER_SIZE ∧ b.tail < BUFFER_SIZE ∧ q.length < BUFFER_SIZE ∧
    b.head = (b.tail + q.length) % BUFFER_SIZE ∧
    ∀ i, i < q.length → b.buffer.getD ((b.tail + i) % BUFFER_SIZE) zeroTx = q.getD i zeroTx

/-! ## Reachable states and their invariants -/

/-- The states the driver can be in: the start-up state, and every state that an action (a
timer tick while the timer runs, or a write call of the facade) or a call of
`TM1637_GetAndClearResponse` leads to from such a state. -/
inductive Reachable : Driver → Prop where
  | init : Reachable initDriver
  | step (a : Action) (d : Driver) : Reachable d → Reachable (step a d).1
  | clear (d : Driver) : Reachable d → Reachable (TM1637_GetAndClearResponse d).2

/-- The queue indices are inside the array, every queued frame has between 1 and `TX_SIZE`
bytes, and the bytes still to send of the current frame lie inside its array. -/
def WellFormed (d : Driver) : Prop :=
  d.tx_buffer.buffer.length = BUFFER_SIZE ∧ d.tx_buffer.head < BUFFER_SIZE ∧
    d.tx_buffer.tail < BUFFER_SIZE ∧
    (∀ f ∈ queueFrames d.tx_buffer, 1 ≤ f.tx_len ∧ f.tx_len ≤ TX_SIZE) ∧
    d.tx_ptr + d.tx_data.tx_len ≤ TX_SIZE ∧ d.tx_ptr < TX_SIZE

/-- Work pending implies the timer runs, and `Idle` implies sub-step 0. -/
def Awake (d : Driver) : Prop :=
  ((d.tx_buffer.tail ≠ d.tx_buffer.head ∨ d.current_state ≠ TM1637_State.IDLE) →
      d.timer_running = true) ∧
    (d.current_state = TM1637_State.IDLE → d.sub_state = 0)

/-- The line writes among the line events, in order: the samples are left out. -/
def writes : List LineEvent → List LineEvent
  | [] => []
  | LineEvent.write line high :: es => LineEvent.write line high :: writes es
  | LineEvent.sample _ :: es => writes es

/-- The driver state with the acknowledgment tracker left out of account. -/
def forgetTracker (d : Driver) : Driver := { d with slave_respond := 0 }

/-- The brightness most recently passed to `TM1637_SetBrightness` in a sequence of actions,
`c` if there is no such call. -/
def lastBrightness : List Action → Nat → Nat
  | [], c => c
  | Action.setBrightness _ _ b :: as, _ => lastBrightness as b
  | Action.tick _ :: as, c => lastBrightness as c
  | Action.writeByte _ _ :: as, c => lastBrightness as c
  | Action.writeSegments _ _ _ :: as, c => lastBrightness as c
  | Action.writeDisplay _ _ _ _ :: as, c => lastBrightness as c
  | Action.displayOn _ _ :: as, c => lastBrightness as c
  | Action.displayOff _ _ :: as, c => lastBrightness as c

/-! ## A `writeBuffer` call interrupted by another -/

/-- A call of `writeBuffer` in progress: how many of its four statements are done (the
assignment of `temp_head` on line 188, the test on line 190, the store on line 194, the
update of `head` on line 195; 4 once it has returned), its local `temp_head`, and the
value it returns. -/
structure WriteCall where
  pc : Nat
  temp_head : Nat
  result : Bool
deriving DecidableEq, Repr

/-- A call of `writeBuffer` that has not started. -/
def writeCall0 : WriteCall := { pc := 0, temp_head := 0, result := false }

/-- The next statement of a `writeBuffer` call in progress (TM1637.c, lines 188-197), on
the buffer as it is at that moment. -/
def writeStep (data : TM1637_Tx) (c : WriteCall) (b : TM1637_Buffer) :
    WriteCall × TM1637_Buffer :=
  if c.pc = 0 then
    ({ c with pc := 1, temp_head := ((b.head + 1) % BUFFER_SIZE) % 256 }, b)
  else if c.pc = 1 then
    if c.temp_head = b.tail then ({ c with pc := 4, result := false }, b)
    else ({ c with pc := 2 }, b)
  else if c.pc = 2 then
    ({ c with pc := 3 }, { b with buffer := b.buffer.set b.head data })
  else if c.pc = 3 then
    ({ c with pc := 4, result := true }, { b with head := c.temp_head })
  else
    (c, b)

/-- The next `n` statements of a `writeBuffer` call in progress. -/
def writeSteps (data : TM1637_Tx) : Nat → WriteCall → TM1637_Buffer → WriteCall × TM1637_Buffer
  | 0, c, b => (c, b)
  | n + 1, c, b =>
    match writeStep data c b with
    | (c1, b1) => writeSteps data n c1 b1

/-- A `writeBuffer(outer)` call that is interrupted after `k` of its statements by a whole
`writeBuffer(inner)` call (a producer in a preempting context) and then runs to its end:
what the outer call returns, what the inner call returns, and the buffer afterwards. -/
def writeBufferPreempted (k : Nat) (outer inner : TM1637_Tx) (b : TM1637_Buffer) :
    Bool × Bool × TM1637_Buffer :=
  match writeSteps outer k writeCall0 b with
  | (c1, b1) =>
    match writeBuffer b1 inner with
    | (ri, b2) =>
      match writeSteps outer (4 - k) c1 b2 with
      | (c2, b3) => (c2.result, ri, b3)

/-- The frames that the `writeBuffer` calls of a sequence of queue calls accepted (returned
true for), in call order. -/
def acceptedFrames : List QueueOp → TM1637_Buffer → List TM1637_Tx
  | [], _ => []
  | QueueOp.write data :: ops, b =>
    (if (writeBuffer b data).1 then [data] else []) ++ acceptedFrames ops (writeBuffer b data).2
  | QueueOp.read dest :: ops, b => acceptedFrames ops (readBuffer b dest).2.1

/-- The one-byte frame `{0x11}`. -/
def frame11 : TM1637_Tx := { tx_frame := [0x11, 0, 0, 0, 0, 0, 0], tx_len := 1 }

/-- The one-byte frame `{0x22}`. -/
def frame22 : TM1637_Tx := { tx_frame := [0x22, 0, 0, 0, 0, 0, 0], tx_len := 1 }

/-! ## Theorems: frame queue -/

theorem holds_empty (b : TM1637_Buffer) (hlen : b.buffer.length = BUFFER_SIZE)
    (hempty : b.head = b.tail) (hlt : b.tail < BUFFER_SIZE) : Holds b [] := by
  refine ⟨hlen, hlt, by simp [BUFFER_SIZE], ?_, ?_⟩
  · simp only [List.length_nil, Nat.add_zero]
    rw [Nat.mod_eq_of_lt hlt]; exact hempty
  · intro i hi; simp at hi

theorem holds_write (b : TM1637_Buffer) (q : List TM1637_Tx) (data : TM1637_Tx)
    (h : Holds b q) (hroom : q.length + 1 < BUFFER_SIZE) :
    (writeBuffer b data).1 = true ∧ Holds (writeBuffer b data).2 (q ++ [data]) := by
  unfold Holds at *
  simp only [BUFFER_SIZE] at *
  obtain ⟨hlen, hlt, hq, hhead, hget⟩ := h
  have hne : ((b.head + 1) % 50) % 256 ≠ b.tail := by omega
  have hhd : b.head < 50 := by omega
  simp only [writeBuffer, BUFFER_SIZE, hne, if_false, true_and]
  refine ⟨by simpa using hlen, hlt, by simpa using hroom, ?_, ?_⟩
  · simp only [List.length_append, List.length_singleton]; omega
  · intro i hi
    simp only [List.length_append, List.length_singleton] at hi
    simp only [List.getD_eq_getElem?_getD] at hget ⊢
    by_cases hiq : i < q.length
    · have hidx : b.head ≠ (b.tail + i) % 50 := by omega
      rw [List.getElem?_set_ne hidx, hget i hiq, List.getElem?_append_left hiq]
    · have hi2 : i = q.length := by omega
      have hidx : (b.tail + i) % 50 = b.head := by omega
      subst hi2
      have hb : b.head < b.buffer.length := by omega
      rw [hidx, List.getElem?_set_self hb]
      simp

theorem holds_read_nil (b : TM1637_Buffer) (dest : TM1637_Tx) (h : Holds b []) :
    readBuffer b dest = (false, b, dest) := by
  unfold Holds at h
  simp only [BUFFER_SIZE, List.length_nil, Nat.add_zero] at h
  obtain ⟨_, hlt, _, hhead, _⟩ := h
  have : b.tail = b.head := by omega
  simp [readBuffer, this]

theorem holds_read_cons (b : TM1637_Buffer) (a dest : TM1637_Tx) (q : List TM1637_Tx)
    (h : Holds b (a :: q)) :
    (readBuffer b dest).1 = true ∧ (readBuffer b dest).2.2 = a ∧
      Holds (readBuffer b dest).2.1 q := by
  unfold Holds at *
  simp only [BUFFER_SIZE, List.length_cons] at *
  obtain ⟨hlen, hlt, hq, hhead, hget⟩ := h
  have hne : b.tail ≠ b.head := by omega
  simp only [readBuffer, BUFFER_SIZE, hne, if_false, true_and]
  refine ⟨?_, hlen, by omega, by omega, by omega, ?_⟩
  · have := hget 0 (by omega)
    simpa [Nat.mod_eq_of_lt hlt] using this
  · intro i hi
    have := hget (i + 1) (by omega)
    have hidx : ((b.tail + 1) % 256 % 50 + i) % 50 = (b.tail + (i + 1)) % 50 := by omega
    rw [hidx, this]
    simp

theorem outstanding_tail (op : QueueOp) (ops : List QueueOp) (n : Nat)
    (h : ∀ k, outstanding ((op :: ops).take k) n < BUFFER_SIZE) :
    ∀ k, outstanding (ops.take k) (outstanding [op] n) < BUFFER_SIZE := by
  intro k
  have := h (k + 1)
  cases op <;> simpa [outstanding] using this

theorem fifo_general (ops : List QueueOp) :
    ∀ (b : TM1637_Buffer) (q : List TM1637_Tx), Holds b q →
      (∀ k, outstanding (ops.take k) q.length < BUFFER_SIZE) →
      (∀ ok ∈ writeFlags (runQueue ops b).1, ok = true) ∧
      (∀ (k : Nat) (f : TM1637_Tx), (readFrames (runQueue ops b).1)[k]? = some f →
        (q ++ writtenFrames ops)[k]? = some f) := by
  induction ops with
  | nil => intro b q _ _; simp [runQueue, writeFlags, readFrames]
  | cons op ops ih =>
    intro b q hq hb
    have htl := outstanding_tail op ops q.length hb
    cases op with
    | write data =>
      have h1 := hb 1
      simp only [List.take_succ_cons, List.take_zero, outstanding] at h1
      obtain ⟨hok, hq2⟩ := holds_write b q data hq h1
      have ih2 := ih (writeBuffer b data).2 (q ++ [data]) hq2 (by simpa [outstanding] using htl)
      simp only [runQueue, writeFlags, readFrames, writtenFrames]
      refine ⟨?_, ?_⟩
      · intro ok hmem
        rcases List.mem_cons.1 hmem with h | h
        · rw [h, hok]
        · exact ih2.1 ok h
      · intro k f hk
        have := ih2.2 k f hk
        simpa using this
    | read dest =>
      cases q with
      | nil =>
        have hr := holds_read_nil b dest hq
        have ih2 := ih b [] hq (by simpa [outstanding] using htl)
        simp only [runQueue, hr, writeFlags, readFrames, writtenFrames]
        exact ih2
      | cons a q =>
        obtain ⟨hok, hdata, hq2⟩ := holds_read_cons b a dest q hq
        have ih2 := ih (readBuffer b dest).2.1 q hq2 (by simpa [outstanding] using htl)
        simp only [runQueue, hok, hdata, writeFlags, readFrames, writtenFrames]
        refine ⟨ih2.1, ?_⟩
        intro k f hk
        cases k with
        | zero => simpa using hk
        | succ k => simpa using ih2.2 k f (by simpa using hk)

/-- C2. FIFO order of the frame queue: on a queue that starts empty (`head = tail < 50`),
for every sequence of `writeBuffer` and `readBuffer` calls that never asks the queue to
hold more than `BUFFER_SIZE - 1 = 49` frames at once, every `writeBuffer` returns true and
the `k`-th successful `readBuffer` yields the frame passed to the `k`-th `writeBuffer`. -/
theorem fifo_order (b : TM1637_Buffer) (ops : List QueueOp)
    (hlen : b.buffer.length = BUFFER_SIZE) (hempty : b.head = b.tail)
    (hlt : b.tail < BUFFER_SIZE)
    (hbound : ∀ k ≤ ops.length, outstanding (ops.take k) 0 ≤ BUFFER_SIZE - 1) :
    (∀ ok ∈ writeFlags (runQueue ops b).1, ok = true) ∧
    (∀ (k : Nat) (f : TM1637_Tx), (readFrames (runQueue ops b).1)[k]? = some f →
      (writtenFrames ops)[k]? = some f) := by
  have hall : ∀ k, outstanding (ops.take k) 0 < BUFFER_SIZE := by
    intro k
    have hk : outstanding (ops.take k) 0 ≤ BUFFER_SIZE - 1 := by
      by_cases h : k ≤ ops.length
      · exact hbound k h
      · have := hbound ops.length (Nat.le_refl _)
        rw [List.take_of_length_le (by omega)]
        simpa using this
    simp only [BUFFER_SIZE] at hk ⊢
    omega
  have h := fifo_general ops b [] (holds_empty b hlen hempty hlt) (by simpa using hall)
  simpa using h

/-- Witness of C2: two frames written, read back, then a third written and read, on the
start-up queue. -/
theorem fifo_order_witness :
    (∀ k ≤ 6, outstanding
      ([QueueOp.write ⟨[1, 0, 0, 0, 0, 0, 0], 1⟩, QueueOp.write ⟨[2, 3, 0, 0, 0, 0, 0], 2⟩,
        QueueOp.read zeroTx, QueueOp.read zeroTx,
        QueueOp.write ⟨[4, 0, 0, 0, 0, 0, 0], 1⟩, QueueOp.read zeroTx].take k) 0
        ≤ BUFFER_SIZE - 1) ∧
    (∀ (k : Nat) (f : TM1637_Tx),
      (readFrames (runQueue
        [QueueOp.write ⟨[1, 0, 0, 0, 0, 0, 0], 1⟩, QueueOp.write ⟨[2, 3, 0, 0, 0, 0, 0], 2⟩,
          QueueOp.read zeroTx, QueueOp.read zeroTx,
          QueueOp.write ⟨[4, 0, 0, 0, 0, 0, 0], 1⟩, QueueOp.read zeroTx]
        initDriver.tx_buffer).1)[k]? = some f →
      (writtenFrames
        [QueueOp.write ⟨[1, 0, 0, 0, 0, 0, 0], 1⟩, QueueOp.write ⟨[2, 3, 0, 0, 0, 0, 0], 2⟩,
          QueueOp.read zeroTx, QueueOp.read zeroTx,
          QueueOp.write ⟨[4, 0, 0, 0, 0, 0, 0], 1⟩, QueueOp.read zeroTx])[k]? = some f) :=
  ⟨by decide,
   (fifo_order initDriver.tx_buffer _ (by decide) (by decide) (by decide) (by decide)).2⟩

theorem writes_advance (fs : List TM1637_Tx) :
    ∀ (b : TM1637_Buffer) (k : Nat), b.tail < BUFFER_SIZE →
      b.head = (b.tail + k) % BUFFER_SIZE → k + fs.length < BUFFER_SIZE →
      writeFlags (runQueue (fs.map QueueOp.write) b).1 = List.replicate fs.length true ∧
      (runQueue (fs.map QueueOp.write) b).2.tail = b.tail ∧
      (runQueue (fs.map QueueOp.write) b).2.head = (b.tail + (k + fs.length)) % BUFFER_SIZE := by
  induction fs with
  | nil => intro b k _ hh _; simpa [runQueue, writeFlags] using hh
  | cons f fs ih =>
    intro b k hlt hh hk
    simp only [BUFFER_SIZE, List.length_cons] at *
    have hne : ((b.head + 1) % 50) % 256 ≠ b.tail := by omega
    have hstep : writeBuffer b f =
        (true, { b with buffer := b.buffer.set b.head f, head := ((b.head + 1) % 50) % 256 }) := by
      simp [writeBuffer, BUFFER_SIZE, hne]
    have ih2 := ih { b with buffer := b.buffer.set b.head f, head := ((b.head + 1) % 50) % 256 }
      (k + 1) hlt (by simp only; omega) (by omega)
    simp only [List.map_cons, runQueue, hstep, writeFlags, List.replicate_succ]
    refine ⟨by rw [ih2.1], ih2.2.1, ?_⟩
    rw [ih2.2.2]
    simp only
    congr 2
    omega

/-- C3. Capacity is `BUFFER_SIZE - 1`: on any empty queue (`head = tail < 50`), with no
dequeue in between, the first 49 `writeBuffer` calls all return true, and the 50th returns
false and leaves `head`, `tail` and every stored frame as they were. -/
theorem capacity (b : TM1637_Buffer) (fs : List TM1637_Tx) (data : TM1637_Tx)
    (hempty : b.head = b.tail) (hlt : b.tail < BUFFER_SIZE)
    (hfs : fs.length = BUFFER_SIZE - 1) :
    writeFlags (runQueue (fs.map QueueOp.write) b).1 = List.replicate 49 true ∧
    writeBuffer (runQueue (fs.map QueueOp.write) b).2 data =
      (false, (runQueue (fs.map QueueOp.write) b).2) := by
  simp only [BUFFER_SIZE] at *
  have h := writes_advance fs b 0 hlt (by simp only [BUFFER_SIZE]; omega)
    (by simp only [BUFFER_SIZE]; omega)
  simp only [BUFFER_SIZE, hfs] at h
  refine ⟨h.1, ?_⟩
  have heq : (((runQueue (fs.map QueueOp.write) b).2.head + 1) % 50) % 256 =
      (runQueue (fs.map QueueOp.write) b).2.tail := by
    rw [h.2.1, h.2.2]; omega
  simp [writeBuffer, BUFFER_SIZE, heq]

/-- Witness of C3: forty-nine one-byte frames on the start-up queue, then a fiftieth. -/
theorem capacity_witness :
    initDriver.tx_buffer.head = initDriver.tx_buffer.tail ∧
    initDriver.tx_buffer.tail < BUFFER_SIZE ∧
    (List.replicate 49 (TM1637_Tx.mk [0x40, 0, 0, 0, 0, 0, 0] 1)).length = BUFFER_SIZE - 1 ∧
    writeFlags (runQueue ((List.replicate 49 (TM1637_Tx.mk [0x40, 0, 0, 0, 0, 0, 0] 1)).map
      QueueOp.write) initDriver.tx_buffer).1 = List.replicate 49 true ∧
    writeBuffer (runQueue ((List.replicate 49 (TM1637_Tx.mk [0x40, 0, 0, 0, 0, 0, 0] 1)).map
      QueueOp.write) initDriver.tx_buffer).2 (TM1637_Tx.mk [0x8D, 0, 0, 0, 0, 0, 0] 1) =
      (false, (runQueue ((List.replicate 49 (TM1637_Tx.mk [0x40, 0, 0, 0, 0, 0, 0] 1)).map
        QueueOp.write) initDriver.tx_buffer).2) :=
  ⟨by decide, by decide, by decide,
   capacity initDriver.tx_buffer _ _ (by decide) (by decide) (by decide)⟩

/-- C4. `readBuffer` on an empty queue (`tail = head`) returns false and changes nothing:
the buffer (head, tail, stored slots) and the caller's destination frame come back as they
were; and `readBuffer` returns false only when the queue is empty. -/
theorem read_empty (b : TM1637_Buffer) (dest : TM1637_Tx) :
    (b.tail = b.head → readBuffer b dest = (false, b, dest)) ∧
    ((readBuffer b dest).1 = false → b.tail = b.head ∧ isBufferEmpty b = true) := by
  constructor
  · intro h; simp [readBuffer, h]
  · intro h
    by_cases he : b.tail = b.head
    · exact ⟨he, by simp [isBufferEmpty, he]⟩
    · simp [readBuffer, he] at h

/-- Witness of C4: a read on the start-up queue, which is empty. -/
theorem read_empty_witness :
    initDriver.tx_buffer.tail = initDriver.tx_buffer.head ∧
    readBuffer initDriver.tx_buffer (TM1637_Tx.mk [7, 7, 7, 7, 7, 7, 7] 3) =
      (false, initDriver.tx_buffer, TM1637_Tx.mk [7, 7, 7, 7, 7, 7, 7] 3) :=
  ⟨by decide, (read_empty initDriver.tx_buffer _).1 (by decide)⟩

/-! ## Theorems: one tick at a time -/

theorem ticks_zero (pin : Nat → Bool) (t : Nat) (d : Driver) : ticks pin t 0 d = (d, []) := rfl

theorem ticks_succ (pin : Nat → Bool) (t n : Nat) (d : Driver) :
    ticks pin t (n + 1) d =
      ((ticks pin (t + 1) n (processState (pin t) d).1).1,
        (processState (pin t) d).2 ++ (ticks pin (t + 1) n (processState (pin t) d).1).2) := rfl

theorem ticks_add (pin : Nat → Bool) (m : Nat) : ∀ (t n : Nat) (d : Driver),
    ticks pin t (m + n) d =
      ((ticks pin (t + m) n (ticks pin t m d).1).1,
        (ticks pin t m d).2 ++ (ticks pin (t + m) n (ticks pin t m d).1).2) := by
  induction m with
  | zero => intro t n d; simp [ticks_zero]
  | succ m ih =>
    intro t n d
    have h : m + 1 + n = (m + n) + 1 := by omega
    rw [h, ticks_succ, ticks_succ, ih]
    have h2 : t + 1 + m = t + (m + 1) := by omega
    simp [h2, List.append_assoc]

theorem bit_eq (x i : Nat) : decide ((x >>> i) &&& 1 ≠ 0) = x.testBit i := by
  simp [Nat.testBit, Nat.and_comm, bne]

theorem start_phase (pin : Nat → Bool) (t : Nat) (d : Driver)
    (hs : d.current_state = TM1637_State.START) (hsub : d.sub_state = 0) :
    ticks pin t 3 d =
      ({ d with sub_state := 0, current_state := TM1637_State.WRITE_BIT }, startEvents) := by
  obtain ⟨buf, sr, st, br, sub, txd, ptr, tim⟩ := d
  simp only at hs hsub
  subst hs hsub
  simp [ticks, processState, startEvents]

theorem stop_phase (pin : Nat → Bool) (t : Nat) (d : Driver)
    (hs : d.current_state = TM1637_State.STOP) (hsub : d.sub_state = 0) :
    ticks pin t 4 d =
      ({ d with sub_state := 0, current_state := TM1637_State.DONE }, stopEvents) := by
  obtain ⟨buf, sr, st, br, sub, txd, ptr, tim⟩ := d
  simp only at hs hsub
  subst hs hsub
  simp [ticks, processState, stopEvents]

theorem byte_phase (pin : Nat → Bool) (t : Nat) (d : Driver)
    (hs : d.current_state = TM1637_State.WRITE_BIT) (hsub : d.sub_state = 0) :
    ticks pin t 12 d =
      (if d.tx_data.tx_len > 1 then
        { d with slave_respond := (d.slave_respond + (if pin (t + 10) then 1 else 0)) % 256,
                 sub_state := 0,
                 tx_data := { d.tx_data with tx_len := d.tx_data.tx_len - 1 },
                 tx_ptr := d.tx_ptr + 1,
                 current_state := TM1637_State.WRITE_BIT }
       else
        { d with slave_respond := (d.slave_respond + (if pin (t + 10) then 1 else 0)) % 256,
                 sub_state := 0,
                 current_state := TM1637_State.STOP },
       bitEvents (d.tx_data.tx_frame.getD d.tx_ptr 0) ++ ackEvents (pin (t + 10))) := by
  obtain ⟨buf, sr, st, br, sub, txd, ptr, tim⟩ := d
  simp only at hs hsub
  subst hs hsub
  by_cases hl : txd.tx_len > 1
  · simp [ticks, processState, bitEvents, bitEventsFrom, ackEvents, writeBit, bit_eq, hl]
  · simp [ticks, processState, bitEvents, bitEventsFrom, ackEvents, writeBit, bit_eq, hl]

theorem idle_tick (p : Bool) (d : Driver)
    (hs : d.current_state = TM1637_State.IDLE)
    (hne : d.tx_buffer.tail ≠ d.tx_buffer.head) :
    processState p d =
      ({ d with tx_buffer :=
                  { d.tx_buffer with tail := (d.tx_buffer.tail + 1) % 256 % BUFFER_SIZE },
                tx_data := d.tx_buffer.buffer.getD d.tx_buffer.tail zeroTx,
                tx_ptr := 0,
                sub_state := 0,
                current_state := TM1637_State.START }, []) := by
  obtain ⟨buf, sr, st, br, sub, txd, ptr, tim⟩ := d
  simp only at hs hne
  subst hs
  simp [processState, readBuffer, hne]

theorem done_tick (p : Bool) (d : Driver) (hs : d.current_state = TM1637_State.DONE) :
    processState p d =
      ({ d with sub_state := 0,
                current_state := TM1637_State.IDLE,
                timer_running :=
                  if d.tx_buffer.tail = d.tx_buffer.head then false else d.timer_running },
        []) := by
  obtain ⟨buf, sr, st, br, sub, txd, ptr, tim⟩ := d
  simp only at hs
  subst hs
  by_cases he : buf.tail = buf.head <;> simp [processState, isBufferEmpty, he]

theorem byte_loop (pin : Nat → Bool) (bytes : List Nat) :
    ∀ (t : Nat) (d : Driver), d.current_state = TM1637_State.WRITE_BIT → d.sub_state = 0 →
      bytes ≠ [] → d.tx_data.tx_len = bytes.length →
      (∀ j, j < bytes.length → d.tx_data.tx_frame.getD (d.tx_ptr + j) 0 = bytes.getD j 0) →
      ticks pin t (12 * bytes.length) d =
        ({ d with slave_respond := (d.slave_respond + ackCount pin t bytes.length) % 256,
                  sub_state := 0,
                  tx_data := { d.tx_data with tx_len := 1 },
                  tx_ptr := d.tx_ptr + (bytes.length - 1),
                  current_state := TM1637_State.STOP },
          byteCycles pin t bytes) := by
  induction bytes with
  | nil => intro t d _ _ h; exact absurd rfl h
  | cons b bs ih =>
    intro t d hs hsub _ hlen hget
    have hb : d.tx_data.tx_frame.getD d.tx_ptr 0 = b := by
      simpa using hget 0 (by simp)
    have hmul : 12 * (b :: bs).length = 12 + 12 * bs.length := by
      simp only [List.length_cons]; omega
    rw [hmul, ticks_add, byte_phase pin t d hs hsub, hb]
    cases bs with
    | nil =>
      have hl : ¬ d.tx_data.tx_len > 1 := by simp [hlen]
      obtain ⟨buf, sr, st, br, sub, ⟨fr, len⟩, ptr, tim⟩ := d
      simp only [List.length_singleton] at hlen
      subst hlen
      simp [ticks, byteCycles, ackCount]
    | cons c cs =>
      have hl : d.tx_data.tx_len > 1 := by simp [hlen]
      simp only [hl, if_true]
      rw [ih (t + 12) _ rfl rfl (by simp) (by simp [hlen])
        (by
          intro j hj
          have := hget (j + 1) (by simpa using hj)
          simpa [Nat.add_assoc, Nat.add_comm 1 j] using this)]
      obtain ⟨buf, sr, st, br, sub, ⟨fr, len⟩, ptr, tim⟩ := d
      simp only at hlen
      subst hlen
      simp only [byteCycles, ackCount, List.length_cons, List.append_assoc, Prod.mk.injEq,
        and_true]
      congr 1
      · omega
      · omega

theorem ticks_one (pin : Nat → Bool) (t : Nat) (d : Driver) :
    ticks pin t 1 d = processState (pin t) d := by
  simp [ticks]

/-- One whole frame, from the `Idle` tick that dequeues it to the tick that enters `Done`. -/
theorem frame_run (pin : Nat → Bool) (t : Nat) (d : Driver) (bytes : List Nat)
    (hs : d.current_state = TM1637_State.IDLE)
    (hne : d.tx_buffer.tail ≠ d.tx_buffer.head)
    (hlen : (d.tx_buffer.buffer.getD d.tx_buffer.tail zeroTx).tx_len = bytes.length)
    (hget : ∀ j, j < bytes.length →
      (d.tx_buffer.buffer.getD d.tx_buffer.tail zeroTx).tx_frame.getD j 0 = bytes.getD j 0)
    (h1 : bytes ≠ []) :
    ticks pin t (8 + 12 * bytes.length) d =
      ({ d with tx_buffer :=
                  { d.tx_buffer with tail := (d.tx_buffer.tail + 1) % 256 % BUFFER_SIZE },
                slave_respond := (d.slave_respond + ackCount pin (t + 4) bytes.length) % 256,
                sub_state := 0,
                tx_data :=
                  { d.tx_buffer.buffer.getD d.tx_buffer.tail zeroTx with tx_len := 1 },
                tx_ptr := bytes.length - 1,
                current_state := TM1637_State.DONE },
        frameEvents pin t bytes) := by
  have hsplit : 8 + 12 * bytes.length = 1 + (3 + (12 * bytes.length + 4)) := by omega
  rw [hsplit, ticks_add, ticks_one, idle_tick (pin t) d hs hne]
  rw [ticks_add, start_phase pin (t + 1) _ rfl rfl]
  rw [ticks_add, byte_loop pin bytes (t + 1 + 3) _ rfl rfl h1 hlen
    (by intro j hj; simpa using hget j hj)]
  rw [stop_phase pin _ _ rfl rfl]
  simp [frameEvents, Nat.add_assoc]

/-! ## Theorems: the state between the phase boundaries -/

/-- The states a frame in transmission goes through before `Done`. -/
theorem start_mid (pin : Nat → Bool) (t : Nat) (d : Driver)
    (hs : d.current_state = TM1637_State.START) (hsub : d.sub_state = 0) (j : Nat)
    (hj : j ≤ 3) :
    (ticks pin t j d).1.current_state ≠ TM1637_State.DONE ∧
    (ticks pin t j d).1.current_state ≠ TM1637_State.IDLE := by
  obtain ⟨buf, sr, st, br, sub, txd, ptr, tim⟩ := d
  simp only at hs hsub
  subst hs hsub
  interval_cases j <;> simp [ticks, processState]

theorem stop_mid (pin : Nat → Bool) (t : Nat) (d : Driver)
    (hs : d.current_state = TM1637_State.STOP) (hsub : d.sub_state = 0) (j : Nat)
    (hj : j < 4) :
    (ticks pin t j d).1.current_state ≠ TM1637_State.DONE ∧
    (ticks pin t j d).1.current_state ≠ TM1637_State.IDLE := by
  obtain ⟨buf, sr, st, br, sub, txd, ptr, tim⟩ := d
  simp only at hs hsub
  subst hs hsub
  interval_cases j <;> simp [ticks, processState]

theorem byte_mid (pin : Nat → Bool) (t : Nat) (d : Driver)
    (hs : d.current_state = TM1637_State.WRITE_BIT) (hsub : d.sub_state = 0) (j : Nat)
    (hj : j ≤ 12) :
    (ticks pin t j d).1.current_state ≠ TM1637_State.DONE ∧
    (ticks pin t j d).1.current_state ≠ TM1637_State.IDLE := by
  obtain ⟨buf, sr, st, br, sub, txd, ptr, tim⟩ := d
  simp only at hs hsub
  subst hs hsub
  by_cases hl : txd.tx_len > 1 <;>
    interval_cases j <;> simp [ticks, processState, hl]

theorem byte_loop_mid (pin : Nat → Bool) (bytes : List Nat) :
    ∀ (t : Nat) (d : Driver), d.current_state = TM1637_State.WRITE_BIT → d.sub_state = 0 →
      bytes ≠ [] → d.tx_data.tx_len = bytes.length →
      ∀ j, j ≤ 12 * bytes.length →
        (ticks pin t j d).1.current_state ≠ TM1637_State.DONE ∧
        (ticks pin t j d).1.current_state ≠ TM1637_State.IDLE := by
  induction bytes with
  | nil => intro t d _ _ h; exact absurd rfl h
  | cons b bs ih =>
    intro t d hs hsub _ hlen j hj
    by_cases hj12 : j ≤ 12
    · exact byte_mid pin t d hs hsub j hj12
    · obtain ⟨i, rfl⟩ : ∃ i, j = 12 + i := ⟨j - 12, by omega⟩
      rw [ticks_add, byte_phase pin t d hs hsub]
      cases bs with
      | nil => simp at hj; omega
      | cons c cs =>
        have hl : d.tx_data.tx_len > 1 := by simp [hlen]
        simp only [hl, if_true]
        exact ih (t + 12) _ rfl rfl (by simp) (by simp [hlen]) i
          (by simp only [List.length_cons] at hj ⊢; omega)

/-- Between the `Idle` tick that dequeues a frame and the tick that enters `Done`, the
state is neither `Done` nor (after the first tick) `Idle`. -/
theorem frame_mid (pin : Nat → Bool) (t : Nat) (d : Driver) (n : Nat)
    (hs : d.current_state = TM1637_State.IDLE)
    (hne : d.tx_buffer.tail ≠ d.tx_buffer.head)
    (hlen : (d.tx_buffer.buffer.getD d.tx_buffer.tail zeroTx).tx_len = n)
    (h1 : 1 ≤ n) (k : Nat) (hk : k < 8 + 12 * n) :
    (ticks pin t k d).1.current_state ≠ TM1637_State.DONE ∧
    (0 < k → (ticks pin t k d).1.current_state ≠ TM1637_State.IDLE) := by
  by_cases hk0 : k = 0
  · subst hk0; simp [ticks, hs]
  obtain ⟨i, rfl⟩ : ∃ i, k = 1 + i := ⟨k - 1, by omega⟩
  obtain ⟨d1, hd1, hs1, hsub1, hlen1⟩ : ∃ d1, processState (pin t) d = (d1, []) ∧
      d1.current_state = TM1637_State.START ∧ d1.sub_state = 0 ∧ d1.tx_data.tx_len = n :=
    ⟨_, idle_tick (pin t) d hs hne, rfl, rfl, hlen⟩
  rw [ticks_add, ticks_one, hd1]
  by_cases hi3 : i ≤ 3
  · have := start_mid pin (t + 1) d1 hs1 hsub1 i hi3
    exact ⟨this.1, fun _ => this.2⟩
  obtain ⟨i2, rfl⟩ : ∃ i2, i = 3 + i2 := ⟨i - 3, by omega⟩
  obtain ⟨d2, hd2, hs2, hsub2, hlen2⟩ : ∃ d2, ticks pin (t + 1) 3 d1 = (d2, startEvents) ∧
      d2.current_state = TM1637_State.WRITE_BIT ∧ d2.sub_state = 0 ∧ d2.tx_data.tx_len = n :=
    ⟨_, start_phase pin (t + 1) d1 hs1 hsub1, rfl, rfl, hlen1⟩
  rw [ticks_add, hd2]
  have hblen : ((List.range n).map
      (fun j => d2.tx_data.tx_frame.getD (d2.tx_ptr + j) 0)).length = n := by simp
  have hnil : (List.range n).map
      (fun j => d2.tx_data.tx_frame.getD (d2.tx_ptr + j) 0) ≠ [] := by
    intro h; have := congrArg List.length h; simp at this; omega
  by_cases hi12 : i2 ≤ 12 * n
  · have := byte_loop_mid pin _ (t + 1 + 3) d2 hs2 hsub2 hnil (by rw [hblen]; exact hlen2) i2
      (by rw [hblen]; exact hi12)
    exact ⟨this.1, fun _ => this.2⟩
  obtain ⟨i3, rfl⟩ : ∃ i3, i2 = 12 * n + i3 := ⟨i2 - 12 * n, by omega⟩
  have hloop := byte_loop pin _ (t + 1 + 3) d2 hs2 hsub2 hnil (by rw [hblen]; exact hlen2)
    (by
      intro j hj
      rw [hblen] at hj
      simp [List.getD_eq_getElem?_getD, hj])
  rw [hblen] at hloop
  obtain ⟨d3, ev, hd3, hs3, hsub3⟩ : ∃ d3 ev, ticks pin (t + 1 + 3) (12 * n) d2 = (d3, ev) ∧
      d3.current_state = TM1637_State.STOP ∧ d3.sub_state = 0 := ⟨_, _, hloop, rfl, rfl⟩
  rw [ticks_add, hd3]
  have := stop_mid pin (t + 1 + 3 + 12 * n) d3 hs3 hsub3 i3 (by omega)
  exact ⟨this.1, fun _ => this.2⟩

/-! ## Theorems: line-event traces -/

/-- C5. Exact line-event trace of a single-byte frame: for every byte `b`, with the state
machine in `Idle` at sub-step 0 and the one-byte frame `{b}` at the queue's tail, the 20
`processState` ticks from that `Idle` tick on are the ticks until the state becomes `Done`
(it is `Done` after the 20th and after none before), and together they emit exactly:
data-high, clock-high, data-low, clock-low, then for `i = 0..7` (clock-low, data = bit `i`
of `b`, clock-high), then clock-low, data-high, clock-high, sample-data, clock-low,
clock-low, data-low, clock-high, data-high. -/
theorem single_byte_trace (pin : Nat → Bool) (t : Nat) (d : Driver) (b : Nat)
    (hs : d.current_state = TM1637_State.IDLE) (hsub : d.sub_state = 0)
    (hne : d.tx_buffer.tail ≠ d.tx_buffer.head)
    (hlen : (d.tx_buffer.buffer.getD d.tx_buffer.tail zeroTx).tx_len = 1)
    (hb : (d.tx_buffer.buffer.getD d.tx_buffer.tail zeroTx).tx_frame.getD 0 0 = b) :
    (ticks pin t 20 d).1.current_state = TM1637_State.DONE ∧
    (∀ k, k < 20 → (ticks pin t k d).1.current_state ≠ TM1637_State.DONE) ∧
    (ticks pin t 20 d).2 =
      [LineEvent.write Line.data true, LineEvent.write Line.clock true,
       LineEvent.write Line.data false, LineEvent.write Line.clock false] ++
      (List.range 8).flatMap (fun i =>
        [LineEvent.write Line.clock false, LineEvent.write Line.data (b.testBit i),
         LineEvent.write Line.clock true]) ++
      [LineEvent.write Line.clock false, LineEvent.write Line.data true,
       LineEvent.write Line.clock true, LineEvent.sample (pin (t + 14)),
       LineEvent.write Line.clock false,
       LineEvent.write Line.clock false, LineEvent.write Line.data false,
       LineEvent.write Line.clock true, LineEvent.write Line.data true] := by
  have hrun := frame_run pin t d [b] hs hne (by simpa using hlen)
    (by intro j hj
        have hj0 : j = 0 := by simpa using hj
        subst hj0
        simpa using hb)
    (by simp)
  have h20 : 8 + 12 * [b].length = 20 := by simp
  rw [h20] at hrun
  refine ⟨by rw [hrun], ?_, ?_⟩
  · intro k hk
    exact (frame_mid pin t d 1 hs hne hlen (Nat.le_refl 1) k (by omega)).1
  · rw [hrun]
    simp [frameEvents, startEvents, byteCycles, bitEvents, bitEventsFrom, ackEvents,
      stopEvents, List.range, List.range.loop, List.flatMap, Nat.add_assoc]

/-- Witness of C5: the byte `0x40` queued on the start-up driver, data line held low. -/
theorem single_byte_trace_witness :
    (ticks (fun _ => false) 0 20
        { initDriver with
          tx_buffer := (writeBuffer initDriver.tx_buffer ⟨[0x40, 0, 0, 0, 0, 0, 0], 1⟩).2 }).2 =
      [LineEvent.write Line.data true, LineEvent.write Line.clock true,
       LineEvent.write Line.data false, LineEvent.write Line.clock false] ++
      (List.range 8).flatMap (fun i =>
        [LineEvent.write Line.clock false, LineEvent.write Line.data (Nat.testBit 0x40 i),
         LineEvent.write Line.clock true]) ++
      [LineEvent.write Line.clock false, LineEvent.write Line.data true,
       LineEvent.write Line.clock true, LineEvent.sample false,
       LineEvent.write Line.clock false,
       LineEvent.write Line.clock false, LineEvent.write Line.data false,
       LineEvent.write Line.clock true, LineEvent.write Line.data true] :=
  (single_byte_trace (fun _ => false) 0
    { initDriver with
      tx_buffer := (writeBuffer initDriver.tx_buffer ⟨[0x40, 0, 0, 0, 0, 0, 0], 1⟩).2 }
    0x40 (by decide) (by decide) (by decide) (by decide) (by decide)).2.2

/-! ## Theorems: what the receiver sees -/

theorem byteOfBits_testBit : ∀ b, b < 256 →
    byteOfBits [b.testBit 0, b.testBit 1, b.testBit 2, b.testBit 3, b.testBit 4,
      b.testBit 5, b.testBit 6, b.testBit 7] = b := by
  decide!

theorem observe_cycle (w : Wire) (b : Nat) (v : Bool) (hin : w.inFrame = true)
    (hbits : w.bits = []) (hb : b < 256) :
    (bitEvents b ++ ackEvents v).foldl observe w =
      { w with clock := some false, data := some true, bytes := w.bytes ++ [b] } := by
  obtain ⟨ck, dt, inf, bits, bytes, frames, starts, stops⟩ := w
  simp only at hin hbits
  subst hin hbits
  simp [bitEvents, bitEventsFrom, ackEvents, observe]
  simpa using byteOfBits_testBit b hb

theorem observe_cycles (pin : Nat → Bool) (bytes : List Nat) :
    ∀ (t : Nat) (w : Wire), w.inFrame = true → w.bits = [] → (∀ x ∈ bytes, x < 256) →
      bytes ≠ [] →
      (byteCycles pin t bytes).foldl observe w =
        { w with clock := some false, data := some true, bytes := w.bytes ++ bytes } := by
  induction bytes with
  | nil => intro t w _ _ _ h; exact absurd rfl h
  | cons b bs ih =>
    intro t w hin hbits hlt _
    have hb : b < 256 := hlt b (by simp)
    have hsplit : byteCycles pin t (b :: bs) =
        (bitEvents b ++ ackEvents (pin (t + 10))) ++ byteCycles pin (t + 12) bs := rfl
    rw [hsplit, List.foldl_append, observe_cycle w b (pin (t + 10)) hin hbits hb]
    cases bs with
    | nil => simp [byteCycles]
    | cons c cs =>
      rw [ih (t + 12) { w with clock := some false, data := some true, bytes := w.bytes ++ [b] }
        hin hbits (fun x hx => hlt x (by simp [List.mem_cons] at hx ⊢; tauto))
        (by simp)]
      simp

theorem samples_append (xs ys : List LineEvent) :
    samples (xs ++ ys) = samples xs ++ samples ys := by
  induction xs with
  | nil => rfl
  | cons x xs ih => cases x <;> simp [samples, ih]

theorem samples_bitEvents (b : Nat) : samples (bitEvents b) = [] := by
  simp [bitEvents, bitEventsFrom, samples]

theorem samples_byteCycles (pin : Nat → Bool) (bytes : List Nat) : ∀ t,
    samples (byteCycles pin t bytes) =
      (List.range bytes.length).map (fun j => pin (t + 10 + 12 * j)) := by
  induction bytes with
  | nil => intro t; simp [byteCycles, samples]
  | cons b bs ih =>
    intro t
    simp only [byteCycles, samples_append, samples_bitEvents, ih, List.length_cons,
      List.range_succ_eq_map, List.map_cons, List.map_map]
    simp only [ackEvents, samples, List.nil_append, List.cons_append, Nat.mul_zero,
      Nat.add_zero, List.cons.injEq, true_and]
    apply List.map_congr_left
    intro j _
    simp only [Function.comp, Nat.succ_eq_add_one]
    congr 1
    omega

/-- C6. Multi-byte frames: for every frame of length `L` in 1..7 with bytes `b0..b(L-1)`
at the queue's tail, the `8 + 12 L` ticks from the `Idle` tick that dequeues it bring the
state to `Done` and emit exactly: the start condition, then for each byte in order its
bits 0..7 (least-significant first; clock low, data = bit, clock high) followed by its
acknowledgment window with one sample, then the stop condition. A receiver on the lines
gets exactly one frame, made of the bytes `b0..b(L-1)`, and sees one start condition and
one stop condition (so none between two bytes); the samples taken are `L`, one per byte. -/
theorem multi_byte_trace (pin : Nat → Bool) (t : Nat) (d : Driver) (bytes : List Nat)
    (hs : d.current_state = TM1637_State.IDLE)
    (hne : d.tx_buffer.tail ≠ d.tx_buffer.head)
    (hlen : (d.tx_buffer.buffer.getD d.tx_buffer.tail zeroTx).tx_len = bytes.length)
    (hget : ∀ j, j < bytes.length →
      (d.tx_buffer.buffer.getD d.tx_buffer.tail zeroTx).tx_frame.getD j 0 = bytes.getD j 0)
    (h1 : 1 ≤ bytes.length) (h7 : bytes.length ≤ TX_SIZE) (hbyte : ∀ x ∈ bytes, x < 256) :
    (ticks pin t (8 + 12 * bytes.length) d).1.current_state = TM1637_State.DONE ∧
    (ticks pin t (8 + 12 * bytes.length) d).2 = frameEvents pin t bytes ∧
    framesOnLine (ticks pin t (8 + 12 * bytes.length) d).2 = [bytes] ∧
    (observeAll (ticks pin t (8 + 12 * bytes.length) d).2).starts = 1 ∧
    (observeAll (ticks pin t (8 + 12 * bytes.length) d).2).stops = 1 ∧
    samples (ticks pin t (8 + 12 * bytes.length) d).2 =
      (List.range bytes.length).map (fun j => pin (t + 14 + 12 * j)) := by
  have hnil : bytes ≠ [] := by
    intro h; rw [h] at h1; simp at h1
  have hrun := frame_run pin t d bytes hs hne hlen hget hnil
  have hobs : observeAll (frameEvents pin t bytes) =
      { wire0 with clock := some true, data := some true, bits := [], frames := [bytes],
                   starts := 1, stops := 1 } := by
    simp only [observeAll, frameEvents, List.foldl_append]
    have hstart : startEvents.foldl observe wire0 =
        { wire0 with clock := some false, data := some false, inFrame := true,
                     starts := 1 } := by
      simp [startEvents, observe, wire0]
    rw [hstart, observe_cycles pin bytes (t + 4) _ rfl rfl hbyte hnil]
    simp [stopEvents, observe, wire0]
  rw [hrun]
  refine ⟨rfl, rfl, ?_, ?_, ?_, ?_⟩
  · simp only [framesOnLine]; rw [hobs]
  · simp only; rw [hobs]
  · simp only; rw [hobs]
  · simp only [frameEvents, samples_append, samples_byteCycles]
    simp [startEvents, stopEvents, samples, Nat.add_assoc]

/-- Witness of C6: the three-byte frame `{0xC0, 0x3F, 0x06}` queued on the start-up driver,
data line held low; 44 ticks. -/
theorem multi_byte_trace_witness :
    (ticks (fun _ => false) 0 44
      { initDriver with
        tx_buffer := (writeBuffer initDriver.tx_buffer
          ⟨[0xC0, 0x3F, 0x06, 0, 0, 0, 0], 3⟩).2 }).1.current_state = TM1637_State.DONE ∧
    framesOnLine (ticks (fun _ => false) 0 44
      { initDriver with
        tx_buffer := (writeBuffer initDriver.tx_buffer
          ⟨[0xC0, 0x3F, 0x06, 0, 0, 0, 0], 3⟩).2 }).2 = [[0xC0, 0x3F, 0x06]] ∧
    samples (ticks (fun _ => false) 0 44
      { initDriver with
        tx_buffer := (writeBuffer initDriver.tx_buffer
          ⟨[0xC0, 0x3F, 0x06, 0, 0, 0, 0], 3⟩).2 }).2 = [false, false, false] :=
  have h := multi_byte_trace (fun _ => false) 0
    { initDriver with
      tx_buffer := (writeBuffer initDriver.tx_buffer ⟨[0xC0, 0x3F, 0x06, 0, 0, 0, 0], 3⟩).2 }
    [0xC0, 0x3F, 0x06] (by decide) (by decide) (by decide) (by decide) (by decide)
    (by decide) (by decide)
  ⟨h.1, h.2.2.1, h.2.2.2.2.2⟩

/-! ## Theorems: whole runs -/

theorem run_cons (a : Action) (as : List Action) (d : Driver) :
    run (a :: as) d =
      ((run as (step a d).1).1, (step a d).2 ++ (run as (step a d).1).2) := rfl

theorem run_append (xs : List Action) : ∀ (ys : List Action) (d : Driver),
    run (xs ++ ys) d =
      ((run ys (run xs d).1).1, (run xs d).2 ++ (run ys (run xs d).1).2) := by
  induction xs with
  | nil => intro ys d; simp [run]
  | cons x xs ih => intro ys d; simp [run, ih, List.append_assoc]

theorem processState_timer (p : Bool) (d : Driver)
    (h : (processState p d).1.timer_running = true) : d.timer_running = true := by
  obtain ⟨buf, sr, st, br, sub, txd, ptr, tim⟩ := d
  cases st <;> simp only [processState] at h <;> split_ifs at h <;> simp_all

theorem ticks_timer (pin : Nat → Bool) (n : Nat) : ∀ (t : Nat) (d : Driver),
    (ticks pin t n d).1.timer_running = true → d.timer_running = true := by
  induction n with
  | zero => intro t d h; simpa [ticks] using h
  | succ n ih =>
    intro t d h
    rw [ticks_succ] at h
    exact processState_timer _ _ (ih _ _ h)

/-- While the timer keeps running, the tick actions of a run are calls of `processState`. -/
theorem run_tickActions (pin : Nat → Bool) (n : Nat) : ∀ (t : Nat) (d : Driver),
    (ticks pin t n d).1.timer_running = true →
    run (tickActions pin t (n + 1)) d = ticks pin t (n + 1) d := by
  induction n with
  | zero =>
    intro t d h
    have hd : d.timer_running = true := by simpa [ticks] using h
    simp [tickActions, run, step, hd, ticks]
  | succ n ih =>
    intro t d h
    have hd : d.timer_running = true := ticks_timer pin _ _ _ h
    rw [ticks_succ] at h
    have hstep : step (Action.tick (pin t)) d = processState (pin t) d := by simp [step, hd]
    have hcons : tickActions pin t (n + 1 + 1) =
        Action.tick (pin t) :: tickActions pin (t + 1) (n + 1) := rfl
    rw [hcons, run_cons, ticks_succ (n := n + 1), hstep, ih (t + 1) _ h]

/-- C1 (evidence). From the start-up state, `TM1637_WriteByte(0x40)` succeeds and queues
the single frame `{0x40}`; the timer then runs for 41 ticks and stops; and the lines carry
two frames, `{0x00}` and then `{0x40}`: one frame more than was enqueued. -/
theorem phantom_frame_on_wake :
    (TM1637_WriteByte zeroTx 0x40 initDriver).1 = true ∧
    (queueFrames (TM1637_WriteByte zeroTx 0x40 initDriver).2.tx_buffer).map payload
      = [[0x40]] ∧
    (run (Action.writeByte zeroTx 0x40 :: tickActions (fun _ => false) 0 40)
      initDriver).1.timer_running = true ∧
    (run (Action.writeByte zeroTx 0x40 :: tickActions (fun _ => false) 0 41)
      initDriver).1.timer_running = false ∧
    framesOnLine (run (Action.writeByte zeroTx 0x40 :: tickActions (fun _ => false) 0 41)
      initDriver).2 = [[0x00], [0x40]] := by
  decide!

/-- The stale frame sent when `sendData` wakes the machine: from `Start` at sub-step 0 with
at most one byte left in `tx_data`, 19 ticks transmit the byte at `tx_ptr` and reach
`Done`. -/
theorem stale_run (pin : Nat → Bool) (t : Nat) (d : Driver)
    (hs : d.current_state = TM1637_State.START) (hsub : d.sub_state = 0)
    (hlen : d.tx_data.tx_len ≤ 1) :
    ticks pin t 19 d =
      ({ d with slave_respond := (d.slave_respond + (if pin (t + 13) then 1 else 0)) % 256,
                sub_state := 0,
                current_state := TM1637_State.DONE },
        startEvents ++ (bitEvents (d.tx_data.tx_frame.getD d.tx_ptr 0) ++
          ackEvents (pin (t + 13))) ++ stopEvents) := by
  have hl : ¬ d.tx_data.tx_len > 1 := by omega
  have hsplit : 19 = 3 + (12 + 4) := rfl
  rw [hsplit, ticks_add, start_phase pin t d hs hsub]
  rw [ticks_add, byte_phase pin (t + 3) _ rfl rfl]
  simp only [hl, if_false]
  rw [stop_phase pin _ _ rfl rfl]
  simp [Nat.add_assoc]


theorem round_ticks (d : Driver) (h : Quiet d) :
    ∃ d40 ev, ticks (fun _ => true) 0 40 (TM1637_WriteByte zeroTx 0x40 d).2 = (d40, ev) ∧
      d40.current_state = TM1637_State.DONE ∧ d40.timer_running = true ∧
      d40.tx_buffer.head = d40.tx_buffer.tail ∧ d40.tx_buffer.tail < BUFFER_SIZE ∧
      d40.tx_buffer.buffer.length = BUFFER_SIZE ∧ d40.tx_data.tx_len ≤ 1 ∧
      d40.slave_respond = (d.slave_respond + 2) % 256 ∧ samples ev = [true, true] := by
  obtain ⟨⟨buf, hd, tl⟩, sr, st, br, sub, ⟨fr, len⟩, ptr, tim⟩ := d
  obtain ⟨h1, h2, h3, h4, h5, h6⟩ := h
  simp only [BUFFER_SIZE] at h1 h2 h3 h4 h5 h6
  subst h1 h2
  have h3s : tl = hd := h3.symm
  subst h3s
  have hne : ((tl + 1) % 50) % 256 ≠ tl := by omega
  have hne2 : tl ≠ ((tl + 1) % 50) % 256 := by omega
  have hw : (TM1637_WriteByte zeroTx 0x40
      { tx_buffer := { buffer := buf, head := tl, tail := tl }, slave_respond := sr,
        current_state := TM1637_State.IDLE, current_brightness := br, sub_state := 0,
        tx_data := { tx_frame := fr, tx_len := len }, tx_ptr := ptr,
        timer_running := tim }).2 =
      { tx_buffer := { buffer := buf.set tl ⟨[0x40, 0, 0, 0, 0, 0, 0], 1⟩,
                       head := ((tl + 1) % 50) % 256, tail := tl },
        slave_respond := sr, current_state := TM1637_State.START, current_brightness := br,
        sub_state := 0, tx_data := { tx_frame := fr, tx_len := len }, tx_ptr := ptr,
        timer_running := true } := by
    simp [TM1637_WriteByte, sendData, writeBuffer, BUFFER_SIZE, hne, zeroTx, TX_SIZE]
  rw [hw]
  have hsplit : 40 = 19 + (1 + 20) := rfl
  rw [hsplit, ticks_add, stale_run _ 0 _ rfl rfl h6]
  rw [ticks_add, ticks_one, done_tick _ _ rfl]
  have hget : (buf.set tl ⟨[0x40, 0, 0, 0, 0, 0, 0], 1⟩).getD tl zeroTx =
      ⟨[0x40, 0, 0, 0, 0, 0, 0], 1⟩ := by
    simp [List.getD_eq_getElem?_getD, h5, h4]
  have hfr := frame_run (fun _ => true) (0 + 19 + 1)
    { tx_buffer := { buffer := buf.set tl ⟨[0x40, 0, 0, 0, 0, 0, 0], 1⟩,
                     head := ((tl + 1) % 50) % 256, tail := tl },
      slave_respond := (sr + 1) % 256, current_state := TM1637_State.IDLE,
      current_brightness := br, sub_state := 0,
      tx_data := { tx_frame := fr, tx_len := len }, tx_ptr := ptr,
      timer_running := true } [0x40] rfl hne2 (by simp only [hget]; rfl)
    (by intro j hj
        have hj0 : j = 0 := by simpa using hj
        subst hj0
        simp only [hget]; rfl)
    (by simp)
  simp only [List.length_singleton, Nat.mul_one] at hfr
  simp only [hne2, if_false, if_true]
  rw [hfr]
  refine ⟨_, _, rfl, rfl, rfl, ?_, ?_, ?_, ?_, ?_, ?_⟩
  · simp only [BUFFER_SIZE]; omega
  · simp only [BUFFER_SIZE]; omega
  · simpa [BUFFER_SIZE] using h5
  · simp
  · simp only [ackCount]; simp
  · simp [samples_append, samples_bitEvents, frameEvents, byteCycles, startEvents, stopEvents,
      ackEvents, samples]

theorem round_effect (d : Driver) (h : Quiet d) :
    Quiet (run missRound d).1 ∧
    (run missRound d).1.slave_respond = (d.slave_respond + 2) % 256 ∧
    samples (run missRound d).2 = [true, true] := by
  obtain ⟨d40, ev, h40, hs, htim, hht, hlt, hlen, hl, hsr, hsam⟩ := round_ticks d h
  have hstep : step (Action.writeByte zeroTx 0x40) d = ((TM1637_WriteByte zeroTx 0x40 d).2, []) :=
    rfl
  have hrun : run (tickActions (fun _ => true) 0 41) (TM1637_WriteByte zeroTx 0x40 d).2 =
      ticks (fun _ => true) 0 (40 + 1) (TM1637_WriteByte zeroTx 0x40 d).2 :=
    run_tickActions _ 40 0 _ (by rw [h40]; exact htim)
  rw [ticks_add, h40, ticks_one, done_tick _ _ hs] at hrun
  simp only [missRound, run_cons, hstep, hrun, List.nil_append, List.append_nil]
  refine ⟨⟨rfl, rfl, hht, hlt, hlen, hl⟩, hsr, hsam⟩

theorem rounds_effect (n : Nat) : ∀ (d : Driver), Quiet d → d.slave_respond < 256 →
    Quiet (run (missRounds n) d).1 ∧
    (run (missRounds n) d).1.slave_respond = (d.slave_respond + 2 * n) % 256 ∧
    samples (run (missRounds n) d).2 = List.replicate (2 * n) true := by
  induction n with
  | zero =>
    intro d h hlt
    exact ⟨h, by simp [missRounds, run, Nat.mod_eq_of_lt hlt], by simp [missRounds, run, samples]⟩
  | succ n ih =>
    intro d h _
    obtain ⟨hq, hsr, hsam⟩ := round_effect d h
    obtain ⟨hq2, hsr2, hsam2⟩ := ih _ hq (by rw [hsr]; omega)
    rw [missRounds, run_append]
    refine ⟨hq2, ?_, ?_⟩
    · simp only [hsr2, hsr]; omega
    · simp only [samples_append, hsam, hsam2]
      have h2 : 2 * (n + 1) = 2 * n + 1 + 1 := by omega
      rw [h2, List.replicate_succ, List.replicate_succ]
      rfl

/-- C7 (evidence). From start-up, 128 rounds of "write the byte `0x40`, let the timer run
until it stops" with the data line high at every tick: the data line is sampled 256 times,
high every time, and `TM1637_GetAndClearResponse` then returns true. -/
theorem miss_counter_wraps :
    samples (run (missRounds 128) initDriver).2 = List.replicate 256 true ∧
    (run (missRounds 128) initDriver).1.slave_respond = 0 ∧
    (TM1637_GetAndClearResponse (run (missRounds 128) initDriver).1).1 = true := by
  have hq : Quiet initDriver := ⟨rfl, rfl, rfl, by decide, by decide, by decide⟩
  obtain ⟨_, hsr, hsam⟩ := rounds_effect 128 initDriver hq (by decide)
  have hsr0 : (run (missRounds 128) initDriver).1.slave_respond = 0 := by
    rw [hsr]; decide
  refine ⟨hsam, hsr0, ?_⟩
  simp [TM1637_GetAndClearResponse, hsr0]

/-! ## Theorems: the acknowledgment tracker -/

theorem sendData_respond (d : Driver) (data : TM1637_Tx) :
    (sendData d data).2.slave_respond = d.slave_respond := by
  simp only [sendData]
  split_ifs <;> rfl

theorem processState_clean (p : Bool) (d : Driver) (h0 : d.slave_respond = 0)
    (hlow : ∀ v ∈ samples (processState p d).2, v = false) :
    (processState p d).1.slave_respond = 0 := by
  obtain ⟨buf, sr, st, br, sub, txd, ptr, tim⟩ := d
  simp only at h0
  subst h0
  cases st <;> simp only [processState] at hlow ⊢ <;> split_ifs at hlow ⊢ <;>
    simp_all [samples]

theorem step_clean (a : Action) (d : Driver) (h0 : d.slave_respond = 0)
    (hlow : ∀ v ∈ samples (step a d).2, v = false) :
    (step a d).1.slave_respond = 0 := by
  cases a with
  | tick pin =>
    by_cases ht : d.timer_running = true
    · simp only [step, ht, if_true] at hlow ⊢
      exact processState_clean pin d h0 hlow
    · simp only [step, ht] at hlow ⊢
      simpa using h0
  | writeByte stack data => simp [step, TM1637_WriteByte, sendData_respond, h0]
  | writeSegments stack address segments =>
    simp [step, TM1637_WriteSegments, TM1637_WriteByte, sendData_respond, h0]
  | writeDisplay stack address segments n =>
    simp only [step, TM1637_WriteDisplay]
    split_ifs
    · exact h0
    · simp [TM1637_WriteByte, sendData_respond, h0]
  | setBrightness s1 s2 b =>
    simp [step, TM1637_SetBrightness, TM1637_WriteByte, sendData_respond, h0]
  | displayOn s1 s2 => simp [step, TM1637_DisplayOn, TM1637_WriteByte, sendData_respond, h0]
  | displayOff s1 s2 => simp [step, TM1637_DisplayOff, TM1637_WriteByte, sendData_respond, h0]

theorem run_clean (acts : List Action) : ∀ (d : Driver), d.slave_respond = 0 →
    (∀ v ∈ samples (run acts d).2, v = false) → (run acts d).1.slave_respond = 0 := by
  induction acts with
  | nil => intro d h0 _; simpa [run] using h0
  | cons a as ih =>
    intro d h0 hlow
    rw [run_cons] at hlow ⊢
    simp only [samples_append, List.mem_append] at hlow
    exact ih _ (step_clean a d h0 (fun v hv => hlow v (Or.inl hv)))
      (fun v hv => hlow v (Or.inr hv))

/-- C8. Clean acknowledgment status: starting at start-up or right after a call of
`TM1637_GetAndClearResponse`, if every sample of the data line taken during the ticks and
write calls that follow is low, `TM1637_GetAndClearResponse` returns true; and after any
call of `TM1637_GetAndClearResponse` the tracker is zero, so a second call with nothing
in between returns true. -/
theorem clean_ack_status (d0 d : Driver) (acts : List Action)
    (hd : d = initDriver ∨ d = (TM1637_GetAndClearResponse d0).2)
    (hlow : ∀ v ∈ samples (run acts d).2, v = false) :
    (TM1637_GetAndClearResponse (run acts d).1).1 = true ∧
    (TM1637_GetAndClearResponse d0).2.slave_respond = 0 ∧
    (TM1637_GetAndClearResponse (TM1637_GetAndClearResponse d0).2).1 = true := by
  have h0 : d.slave_respond = 0 := by
    rcases hd with h | h <;> rw [h] <;> rfl
  have := run_clean acts d h0 hlow
  refine ⟨by simp [TM1637_GetAndClearResponse, this], rfl, by simp [TM1637_GetAndClearResponse]⟩

/-- Witness of C8: a driver with three recorded misses is read (and cleared), then `0x40`
is written and the timer runs 41 ticks with the data line low. -/
theorem clean_ack_status_witness :
    (∀ v ∈ samples (run (Action.writeByte zeroTx 0x40 :: tickActions (fun _ => false) 0 41)
      (TM1637_GetAndClearResponse { initDriver with slave_respond := 3 }).2).2, v = false) ∧
    (TM1637_GetAndClearResponse { initDriver with slave_respond := 3 }).1 = false ∧
    (TM1637_GetAndClearResponse
      (run (Action.writeByte zeroTx 0x40 :: tickActions (fun _ => false) 0 41)
        (TM1637_GetAndClearResponse { initDriver with slave_respond := 3 }).2).1).1 = true :=
  ⟨by decide!, by decide,
   (clean_ack_status { initDriver with slave_respond := 3 } _
     (Action.writeByte zeroTx 0x40 :: tickActions (fun _ => false) 0 41) (Or.inr rfl)
     (by decide!)).1⟩

/-! ## Theorems: the facade -/

theorem holds_queueFrames (b : TM1637_Buffer) (hlen : b.buffer.length = BUFFER_SIZE)
    (hh : b.head < BUFFER_SIZE) (ht : b.tail < BUFFER_SIZE) : Holds b (queueFrames b) := by
  unfold Holds queueFrames queueCount
  simp only [BUFFER_SIZE] at *
  refine ⟨hlen, ht, ?_, ?_, ?_⟩
  · simp only [List.length_map, List.length_range]; omega
  · simp only [List.length_map, List.length_range]; omega
  · intro i hi
    simp only [List.length_map, List.length_range] at hi
    simp [List.getD_eq_getElem?_getD, hi]

theorem queueFrames_of_holds (b : TM1637_Buffer) (q : List TM1637_Tx) (h : Holds b q) :
    queueFrames b = q := by
  obtain ⟨_, ht, hq, hhead, hget⟩ := h
  simp only [BUFFER_SIZE] at ht hq hhead hget
  have hc : queueCount b = q.length := by
    simp only [queueCount, BUFFER_SIZE]; omega
  apply List.ext_getElem
  · simp [queueFrames, hc]
  · intro i h1 h2
    have := hget i h2
    simp only [List.getD_eq_getElem?_getD] at this
    simp only [queueFrames, BUFFER_SIZE, List.getElem_map, List.getElem_range,
      List.getD_eq_getElem?_getD, this]
    simp [h2]

theorem sendData_buffer (d : Driver) (data : TM1637_Tx) :
    (sendData d data).1 = (writeBuffer d.tx_buffer data).1 ∧
    (sendData d data).2.tx_buffer = (writeBuffer d.tx_buffer data).2 := by
  simp only [sendData]
  split_ifs <;> exact ⟨rfl, rfl⟩

theorem copySegments_frame (address : Nat) (segments : List Nat) (n : Nat) (hn : n ≤ 6)
    (hseg : segments.length = n) :
    copySegments segments n 0 { zeroTx with tx_frame := zeroTx.tx_frame.set 0 address } =
      ⟨address :: segments ++ List.replicate (6 - n) 0, 0⟩ := by
  interval_cases n
  · obtain rfl : segments = [] := List.length_eq_zero.1 hseg
    rfl
  · obtain ⟨a, rfl⟩ := List.length_eq_one.1 hseg
    rfl
  · obtain ⟨a, b, rfl⟩ := List.length_eq_two.1 hseg
    rfl
  · obtain ⟨a, b, c, rfl⟩ := List.length_eq_three.1 hseg
    rfl
  · match segments, hseg with
    | [a, b, c, e], _ => rfl
  · match segments, hseg with
    | [a, b, c, e, f], _ => rfl
  · match segments, hseg with
    | [a, b, c, e, f, g], _ => rfl

/-- C9. Frames built by `TM1637_WriteDisplay`: for every address, every count `n` in 0..6
and every segment array of that length, when the (well-formed) queue has at least two free
slots, the call returns true and the queue afterwards is the queue before followed by
exactly two frames, in this order: the data-command frame, whose one byte is `0x40`, then
the frame `{address, segments[0], ..., segments[n-1]}` of length `n + 1`. -/
theorem write_display_frames (stack : TM1637_Tx) (address : Nat) (segments : List Nat)
    (n : Nat) (d : Driver)
    (hstack : stack.tx_frame.length = TX_SIZE)
    (hlen : d.tx_buffer.buffer.length = BUFFER_SIZE)
    (hh : d.tx_buffer.head < BUFFER_SIZE) (ht : d.tx_buffer.tail < BUFFER_SIZE)
    (hroom : queueCount d.tx_buffer + 2 ≤ BUFFER_SIZE - 1)
    (hn : n ≤ 6) (hseg : segments.length = n) :
    (TM1637_WriteDisplay stack address segments n d).1 = true ∧
    queueFrames (TM1637_WriteDisplay stack address segments n d).2.tx_buffer =
      queueFrames d.tx_buffer ++
        [{ stack with tx_frame := stack.tx_frame.set 0 0x40, tx_len := 1 },
         ⟨address :: segments ++ List.replicate (6 - n) 0, n + 1⟩] ∧
    payload { stack with tx_frame := stack.tx_frame.set 0 0x40, tx_len := 1 } = [0x40] ∧
    payload ⟨address :: segments ++ List.replicate (6 - n) 0, n + 1⟩ = address :: segments := by
  have hq0 := holds_queueFrames d.tx_buffer hlen hh ht
  have hcount : (queueFrames d.tx_buffer).length = queueCount d.tx_buffer := by
    simp [queueFrames]
  simp only [BUFFER_SIZE] at hroom
  obtain ⟨hok1, hq1⟩ := holds_write d.tx_buffer _
    { stack with tx_frame := stack.tx_frame.set 0 0x40, tx_len := 1 } hq0
    (by simp only [BUFFER_SIZE, hcount]; omega)
  obtain ⟨hok2, hq2⟩ := holds_write _ _
    (⟨address :: segments ++ List.replicate (6 - n) 0, n + 1⟩ : TM1637_Tx) hq1
    (by simp only [BUFFER_SIZE, List.length_append, List.length_singleton, hcount]; omega)
  have hguard : ¬ n ≥ TX_SIZE := by simp only [TX_SIZE]; omega
  have hmod : (n + 1) % 256 = n + 1 := by omega
  have hcmd : WRITE_DATA ||| ADDRESS_AI ||| NORMAL_MODE = 0x40 := by decide
  have hcall : TM1637_WriteDisplay stack address segments n d =
      sendData (sendData d { stack with tx_frame := stack.tx_frame.set 0 0x40, tx_len := 1 }).2
        ⟨address :: segments ++ List.replicate (6 - n) 0, n + 1⟩ := by
    simp only [TM1637_WriteDisplay, hguard, if_false, TM1637_WriteByte, hcmd,
      copySegments_frame address segments n hn hseg, hmod]
  rw [hcall]
  obtain ⟨hf2, hb2⟩ := sendData_buffer
    (sendData d { stack with tx_frame := stack.tx_frame.set 0 0x40, tx_len := 1 }).2
    ⟨address :: segments ++ List.replicate (6 - n) 0, n + 1⟩
  obtain ⟨_, hb1⟩ := sendData_buffer d
    { stack with tx_frame := stack.tx_frame.set 0 0x40, tx_len := 1 }
  rw [hf2, hb2, hb1]
  refine ⟨hok2, ?_, ?_, ?_⟩
  · rw [queueFrames_of_holds _ _ hq2]; simp
  · obtain ⟨fr, len⟩ := stack
    simp only [TX_SIZE] at hstack
    match fr, hstack with
    | a :: rest, _ => simp [payload]
  · simp [payload, ← hseg]

/-- Witness of C9: `TM1637_WriteDisplay(0xC0, [0x3F, 0x06], 2)` on the start-up driver. -/
theorem write_display_frames_witness :
    (TM1637_WriteDisplay zeroTx 0xC0 [0x3F, 0x06] 2 initDriver).1 = true ∧
    (queueFrames (TM1637_WriteDisplay zeroTx 0xC0 [0x3F, 0x06] 2 initDriver).2.tx_buffer).map
      payload = [[0x40], [0xC0, 0x3F, 0x06]] ∧
    (queueFrames (TM1637_WriteDisplay zeroTx 0xC0 [0x3F, 0x06] 2 initDriver).2.tx_buffer).map
      TM1637_Tx.tx_len = [1, 3] := by
  have h := write_display_frames zeroTx 0xC0 [0x3F, 0x06] 2 initDriver (by decide) (by decide)
    (by decide) (by decide) (by decide) (by decide) (by decide)
  refine ⟨h.1, ?_, ?_⟩
  · rw [h.2.1]; decide
  · rw [h.2.1]; decide

/-- C10. Length validation of `TM1637_WriteDisplay`: when `count + 1` exceeds the 7-byte
payload limit (`count ≥ 7 = TX_SIZE`) the call returns false and leaves the whole driver
(queue, state-machine state, timer) as it was, so not even the data-command frame is
enqueued; and for `count` in 0..6 the call is not rejected for its length: it returns
false exactly when the queue, after the data-command frame was offered to it, has no free
slot for the display frame. -/
theorem write_display_length_check (stack : TM1637_Tx) (address : Nat) (segments : List Nat)
    (n : Nat) (d : Driver) :
    (TX_SIZE ≤ n → TM1637_WriteDisplay stack address segments n d = (false, d)) ∧
    (n < TX_SIZE →
      ((TM1637_WriteDisplay stack address segments n d).1 = false ↔
        ((TM1637_WriteByte stack 0x40 d).2.tx_buffer.head + 1) % BUFFER_SIZE % 256 =
          (TM1637_WriteByte stack 0x40 d).2.tx_buffer.tail)) := by
  constructor
  · intro h
    simp [TM1637_WriteDisplay, h]
  · intro h
    have hguard : ¬ n ≥ TX_SIZE := by omega
    have hcmd : WRITE_DATA ||| ADDRESS_AI ||| NORMAL_MODE = 0x40 := by decide
    simp only [TM1637_WriteDisplay, hguard, if_false, hcmd]
    rw [(sendData_buffer _ _).1]
    simp only [writeBuffer]
    split_ifs with hfull
    · simp [hfull]
    · simp [hfull]

/-- Witness of C10: seven segments are refused and nothing changes; six are accepted. -/
theorem write_display_length_check_witness :
    TM1637_WriteDisplay zeroTx 0xC0 [1, 2, 3, 4, 5, 6, 7] 7 initDriver = (false, initDriver) ∧
    (TM1637_WriteDisplay zeroTx 0xC0 [1, 2, 3, 4, 5, 6] 6 initDriver).1 = true :=
  ⟨(write_display_length_check zeroTx 0xC0 [1, 2, 3, 4, 5, 6, 7] 7 initDriver).1 (by decide),
   by decide⟩

/-! ## Theorems: invariants of the reachable states -/

theorem queue_write (b : TM1637_Buffer) (data : TM1637_Tx)
    (hlen : b.buffer.length = BUFFER_SIZE) (hh : b.head < BUFFER_SIZE)
    (ht : b.tail < BUFFER_SIZE) :
    (writeBuffer b data).2.buffer.length = BUFFER_SIZE ∧
    (writeBuffer b data).2.head < BUFFER_SIZE ∧
    (writeBuffer b data).2.tail = b.tail ∧
    ((writeBuffer b data = (false, b) ∧ queueCount b = BUFFER_SIZE - 1) ∨
     ((writeBuffer b data).1 = true ∧ queueCount b + 1 < BUFFER_SIZE ∧
      queueFrames (writeBuffer b data).2 = queueFrames b ++ [data])) := by
  have hq := holds_queueFrames b hlen hh ht
  have hcount : (queueFrames b).length = queueCount b := by simp [queueFrames]
  by_cases hfull : ((b.head + 1) % BUFFER_SIZE) % 256 = b.tail
  · have hw : writeBuffer b data = (false, b) := by simp [writeBuffer, hfull]
    rw [hw]
    refine ⟨hlen, hh, rfl, Or.inl ⟨rfl, ?_⟩⟩
    simp only [queueCount, BUFFER_SIZE] at *
    omega
  · have hroom : queueCount b + 1 < BUFFER_SIZE := by
      simp only [queueCount, BUFFER_SIZE] at *
      omega
    obtain ⟨hok, hq2⟩ := holds_write b _ data hq (by rw [hcount]; exact hroom)
    refine ⟨hq2.1, ?_, ?_, Or.inr ⟨hok, hroom, queueFrames_of_holds _ _ hq2⟩⟩
    · have hfull2 : ¬ ((b.head + 1) % 50 % 256 = b.tail) := by
        simpa [BUFFER_SIZE] using hfull
      simp only [writeBuffer, BUFFER_SIZE, hfull2, if_false]; omega
    · simp [writeBuffer, hfull]

theorem queue_read (b : TM1637_Buffer) (dest : TM1637_Tx)
    (hlen : b.buffer.length = BUFFER_SIZE) (hh : b.head < BUFFER_SIZE)
    (ht : b.tail < BUFFER_SIZE) :
    (readBuffer b dest).2.1.buffer.length = BUFFER_SIZE ∧
    (readBuffer b dest).2.1.head = b.head ∧
    (readBuffer b dest).2.1.tail < BUFFER_SIZE ∧
    ((readBuffer b dest = (false, b, dest) ∧ b.tail = b.head) ∨
     ((readBuffer b dest).1 = true ∧ b.tail ≠ b.head ∧
      (readBuffer b dest).2.2 = b.buffer.getD b.tail zeroTx ∧
      (readBuffer b dest).2.1.tail = (b.tail + 1) % BUFFER_SIZE ∧
      queueFrames b = (readBuffer b dest).2.2 :: queueFrames (readBuffer b dest).2.1)) := by
  have hq := holds_queueFrames b hlen hh ht
  by_cases he : b.tail = b.head
  · have hr : readBuffer b dest = (false, b, dest) := by simp [readBuffer, he]
    rw [hr]
    exact ⟨hlen, rfl, ht, Or.inl ⟨rfl, he⟩⟩
  · have hpos : 0 < queueCount b := by
      simp only [queueCount, BUFFER_SIZE] at *
      omega
    obtain ⟨a, q, hcons⟩ : ∃ a q, queueFrames b = a :: q := by
      cases hqf : queueFrames b with
      | nil =>
        have : (queueFrames b).length = queueCount b := by simp [queueFrames]
        rw [hqf] at this; simp at this; omega
      | cons a q => exact ⟨a, q, rfl⟩
    rw [hcons] at hq
    obtain ⟨hok, hdata, hq2⟩ := holds_read_cons b a dest q hq
    refine ⟨hq2.1, ?_, hq2.2.1, Or.inr ⟨hok, he, ?_, ?_, ?_⟩⟩
    · simp [readBuffer, he]
    · simp [readBuffer, he]
    · simp only [readBuffer, he, if_false, BUFFER_SIZE] at ht ⊢; omega
    · rw [hcons, hdata, queueFrames_of_holds _ _ hq2]

theorem sendData_fields (d : Driver) (data : TM1637_Tx) :
    (sendData d data).2.tx_ptr = d.tx_ptr ∧ (sendData d data).2.tx_data = d.tx_data ∧
    (sendData d data).2.sub_state = d.sub_state ∧
    (sendData d data).2.current_brightness = d.current_brightness := by
  simp only [sendData]
  split_ifs <;> exact ⟨rfl, rfl, rfl, rfl⟩

theorem sendData_wf (d : Driver) (data : TM1637_Tx) (h : WellFormed d)
    (hl : 1 ≤ data.tx_len ∧ data.tx_len ≤ TX_SIZE) : WellFormed (sendData d data).2 := by
  obtain ⟨hlen, hh, ht, hq, hp, hp2⟩ := h
  obtain ⟨h1, h2, h3, h4⟩ := queue_write d.tx_buffer data hlen hh ht
  obtain ⟨f1, f2, _, _⟩ := sendData_fields d data
  unfold WellFormed
  rw [(sendData_buffer d data).2, f1, f2, h3]
  refine ⟨h1, h2, ht, ?_, hp, hp2⟩
  rcases h4 with ⟨hw, _⟩ | ⟨_, _, hw⟩
  · rw [hw]; exact hq
  · rw [hw]
    intro f hf
    rcases List.mem_append.1 hf with hf | hf
    · exact hq f hf
    · rw [List.mem_singleton.1 hf]; exact hl

theorem writeByte_wf (stack : TM1637_Tx) (data : Nat) (d : Driver) (h : WellFormed d) :
    WellFormed (TM1637_WriteByte stack data d).2 :=
  sendData_wf d _ h ⟨Nat.le_refl 1, by simp [TX_SIZE]⟩

theorem copySegments_len (segments : List Nat) (n : Nat) : ∀ (i : Nat) (data : TM1637_Tx),
    (copySegments segments n i data).tx_len = data.tx_len := by
  induction n with
  | zero => intro i data; rfl
  | succ n ih => intro i data; simp [copySegments, ih]

theorem processState_wf (p : Bool) (d : Driver) (h : WellFormed d) :
    WellFormed (processState p d).1 := by
  obtain ⟨hlen, hh, ht, hq, hp, hp2⟩ := h
  obtain ⟨buf, sr, st, br, sub, txd, ptr, tim⟩ := d
  simp only at hlen hh ht hq hp hp2
  cases st
  case IDLE =>
    obtain ⟨r1, r2, r3, r4⟩ := queue_read buf txd hlen hh ht
    rcases r4 with ⟨hr, _⟩ | ⟨hok, hne, hdata, _, hcons⟩
    · simp only [processState, hr]
      exact ⟨hlen, hh, ht, hq, hp, hp2⟩
    · have hmem := hq (readBuffer buf txd).2.2 (by rw [hcons]; simp)
      simp only [processState, hok, if_true]
      refine ⟨r1, by rw [r2]; exact hh, r3, ?_, ?_, by simp [TX_SIZE]⟩
      · intro f hf
        exact hq f (by rw [hcons]; exact List.mem_cons_of_mem _ hf)
      · simpa using hmem.2
  case READ_READY =>
    simp only [processState]
    split_ifs <;> unfold WellFormed <;> dsimp only at * <;>
      refine ⟨hlen, hh, ht, hq, ?_, ?_⟩ <;> simp only [TX_SIZE] at * <;> omega
  all_goals
    simp only [processState]
    split_ifs <;> exact ⟨hlen, hh, ht, hq, hp, hp2⟩

theorem step_wf (a : Action) (d : Driver) (h : WellFormed d) : WellFormed (step a d).1 := by
  cases a with
  | tick pin =>
    simp only [step]
    split_ifs
    · exact processState_wf pin d h
    · exact h
  | writeByte stack data => exact writeByte_wf stack data d h
  | writeSegments stack address segments =>
    exact sendData_wf _ _ (writeByte_wf _ _ d h) ⟨by simp, by simp [TX_SIZE]⟩
  | writeDisplay stack address segments n =>
    simp only [step, TM1637_WriteDisplay]
    split_ifs with hn
    · exact h
    · refine sendData_wf _ _ (writeByte_wf _ _ d h) ?_
      simp only [TX_SIZE] at hn ⊢
      have hmod : (n + 1) % 256 = n + 1 := by omega
      simp only [hmod]
      omega
  | setBrightness s1 s2 b =>
    refine writeByte_wf _ _ _ (writeByte_wf _ _ _ ?_)
    exact h
  | displayOn s1 s2 => exact writeByte_wf _ _ _ (writeByte_wf _ _ d h)
  | displayOff s1 s2 => exact writeByte_wf _ _ _ (writeByte_wf _ _ d h)

theorem init_wf : WellFormed initDriver := by
  refine ⟨by decide, by decide, by decide, ?_, by decide, by decide⟩
  intro f hf
  simp [queueFrames, queueCount, initDriver, BUFFER_SIZE] at hf

theorem reachable_wf (d : Driver) (h : Reachable d) : WellFormed d := by
  induction h with
  | init => exact init_wf
  | step a d _ ih => exact step_wf a d ih
  | clear d _ ih => exact ih

theorem sendData_awake (d : Driver) (data : TM1637_Tx) (h : Awake d) :
    Awake (sendData d data).2 := by
  obtain ⟨h1, h2⟩ := h
  by_cases hs : d.current_state = TM1637_State.IDLE
  · simp only [sendData, hs, if_true]
    exact ⟨fun _ => rfl, fun hc => by simp at hc⟩
  · have ht := h1 (Or.inr hs)
    simp only [sendData, hs, if_false]
    exact ⟨fun _ => ht, fun hc => absurd hc hs⟩

theorem processState_awake (p : Bool) (d : Driver) (h : Awake d)
    (ht : d.timer_running = true) : Awake (processState p d).1 := by
  obtain ⟨h1, h2⟩ := h
  obtain ⟨buf, sr, st, br, sub, txd, ptr, tim⟩ := d
  simp only at h1 h2 ht
  subst ht
  cases st
  case IDLE =>
    by_cases he : buf.tail = buf.head
    · simp only [processState, readBuffer, he, if_true]
      exact ⟨fun _ => rfl, fun _ => h2 rfl⟩
    · simp only [processState, readBuffer, he, if_false, if_true]
      exact ⟨fun _ => rfl, fun hc => by simp at hc⟩
  case DONE =>
    by_cases he : buf.tail = buf.head
    · simp only [processState, isBufferEmpty, he, decide_True, if_true]
      exact ⟨fun hc => by simp [he] at hc, fun _ => rfl⟩
    · simp only [processState, isBufferEmpty, he, decide_False]
      exact ⟨fun _ => rfl, fun _ => rfl⟩
  all_goals
    simp only [processState]
    split_ifs <;> exact ⟨fun _ => rfl, fun hc => by simp at hc⟩

theorem step_awake (a : Action) (d : Driver) (h : Awake d) : Awake (step a d).1 := by
  cases a with
  | tick pin =>
    simp only [step]
    split_ifs with ht
    · exact processState_awake pin d h ht
    · exact h
  | writeByte stack data => exact sendData_awake d _ h
  | writeSegments stack address segments =>
    exact sendData_awake _ _ (sendData_awake d _ h)
  | writeDisplay stack address segments n =>
    simp only [step, TM1637_WriteDisplay]
    split_ifs
    · exact h
    · exact sendData_awake _ _ (sendData_awake d _ h)
  | setBrightness s1 s2 b =>
    refine sendData_awake _ _ (sendData_awake _ _ ?_)
    exact h
  | displayOn s1 s2 => exact sendData_awake _ _ (sendData_awake d _ h)
  | displayOff s1 s2 => exact sendData_awake _ _ (sendData_awake d _ h)

theorem init_awake : Awake initDriver :=
  ⟨fun hc => by simp [initDriver] at hc, fun _ => rfl⟩

theorem reachable_awake (d : Driver) (h : Reachable d) : Awake d := by
  induction h with
  | init => exact init_awake
  | step a d _ ih => exact step_awake a d ih
  | clear d _ ih => exact ih

theorem reachable_run (acts : List Action) : ∀ (d : Driver), Reachable d →
    Reachable (run acts d).1 := by
  induction acts with
  | nil => intro d h; exact h
  | cons a as ih =>
    intro d h
    rw [run_cons]
    exact ih _ (Reachable.step a d h)

/-- C19. No stranded frame (sequential model): in every state reachable from the start-up
state (`Idle`, empty queue, timer stopped) by whole facade calls and whole ticks, a tick
taking place only while the timer runs, if the queue is non-empty or the state is not
`Idle` then the timer is running; and the sub-step counter is 0 whenever the state is
`Idle`. -/
theorem no_stranded_frame (d : Driver) (h : Reachable d) :
    ((d.tx_buffer.tail ≠ d.tx_buffer.head ∨ d.current_state ≠ TM1637_State.IDLE) →
      d.timer_running = true) ∧
    (d.current_state = TM1637_State.IDLE → d.sub_state = 0) :=
  reachable_awake d h

/-- Witness of C19: the state after `TM1637_WriteByte(0x40)` and three ticks. -/
theorem no_stranded_frame_witness :
    Reachable (run (Action.writeByte zeroTx 0x40 :: tickActions (fun _ => false) 0 3)
      initDriver).1 ∧
    (run (Action.writeByte zeroTx 0x40 :: tickActions (fun _ => false) 0 3)
      initDriver).1.current_state = TM1637_State.WRITE_BIT ∧
    (run (Action.writeByte zeroTx 0x40 :: tickActions (fun _ => false) 0 3)
      initDriver).1.timer_running = true :=
  have hr : Reachable (run (Action.writeByte zeroTx 0x40 :: tickActions (fun _ => false) 0 3)
      initDriver).1 := reachable_run _ _ Reachable.init
  ⟨hr, by decide, (no_stranded_frame _ hr).1 (Or.inr (by decide))⟩

theorem ticks_succ_right (pin : Nat → Bool) (t k : Nat) (d : Driver) :
    ticks pin t (k + 1) d =
      ((processState (pin (t + k)) (ticks pin t k d).1).1,
        (ticks pin t k d).2 ++ (processState (pin (t + k)) (ticks pin t k d).1).2) := by
  rw [ticks_add, ticks_one]

theorem processState_ptr (p : Bool) (d : Driver) (n : Nat)
    (hs : d.current_state ≠ TM1637_State.IDLE)
    (hsum : d.tx_ptr + d.tx_data.tx_len = n) (hpos : 1 ≤ d.tx_data.tx_len) :
    (processState p d).1.tx_ptr + (processState p d).1.tx_data.tx_len = n ∧
    1 ≤ (processState p d).1.tx_data.tx_len := by
  obtain ⟨buf, sr, st, br, sub, txd, ptr, tim⟩ := d
  simp only at hs hsum hpos
  cases st
  case IDLE => exact absurd rfl hs
  all_goals
    simp only [processState]
    split_ifs <;> dsimp only at * <;> omega

/-- While a dequeued frame of `n` bytes is transmitted, the byte position plus the bytes
left is `n`, and at least one byte is left. -/
theorem frame_ptr (pin : Nat → Bool) (t : Nat) (d : Driver) (n : Nat)
    (hs : d.current_state = TM1637_State.IDLE)
    (hne : d.tx_buffer.tail ≠ d.tx_buffer.head)
    (hlen : (d.tx_buffer.buffer.getD d.tx_buffer.tail zeroTx).tx_len = n)
    (h1 : 1 ≤ n) (k : Nat) (hk1 : 1 ≤ k) (hk : k ≤ 8 + 12 * n) :
    (ticks pin t k d).1.tx_ptr + (ticks pin t k d).1.tx_data.tx_len = n ∧
    1 ≤ (ticks pin t k d).1.tx_data.tx_len := by
  induction k with
  | zero => omega
  | succ k ih =>
    by_cases hk0 : k = 0
    · subst hk0
      rw [ticks_one, idle_tick (pin t) d hs hne]
      dsimp only
      omega
    · obtain ⟨hsum, hpos⟩ := ih (by omega) (by omega)
      have hmid := (frame_mid pin t d n hs hne hlen h1 k (by omega)).2 (by omega)
      rw [ticks_succ_right]
      exact processState_ptr _ _ n hmid hsum hpos

/-- C18. Well-formed queue invariant: in every state reachable from the start-up state by
public API calls and ticks, `head < 50` and `tail < 50`, and every frame stored between
`tail` and `head` has `1 ≤ tx_len ≤ 7`; consequently the byte position `tx_ptr` is always
inside the 7-byte payload, and while the frame at the queue's tail is transmitted (from
the `Idle` tick that dequeues it to the tick that enters `Done`) the byte position stays
within indices `0..tx_len-1` of that frame. -/
theorem queue_well_formed (d : Driver) (h : Reachable d) :
    d.tx_buffer.head < BUFFER_SIZE ∧ d.tx_buffer.tail < BUFFER_SIZE ∧
    (∀ f ∈ queueFrames d.tx_buffer, 1 ≤ f.tx_len ∧ f.tx_len ≤ TX_SIZE) ∧
    d.tx_ptr < TX_SIZE ∧
    (d.current_state = TM1637_State.IDLE → d.tx_buffer.tail ≠ d.tx_buffer.head →
      (d.tx_buffer.buffer.getD d.tx_buffer.tail zeroTx).tx_len ≤ TX_SIZE ∧
      ∀ (pin : Nat → Bool) (t k : Nat), 1 ≤ k →
        k ≤ 8 + 12 * (d.tx_buffer.buffer.getD d.tx_buffer.tail zeroTx).tx_len →
        (ticks pin t k d).1.tx_ptr <
          (d.tx_buffer.buffer.getD d.tx_buffer.tail zeroTx).tx_len) := by
  obtain ⟨hlen, hh, ht, hq, _, hp2⟩ := reachable_wf d h
  refine ⟨hh, ht, hq, hp2, ?_⟩
  intro hs hne
  obtain ⟨_, _, _, r4⟩ := queue_read d.tx_buffer d.tx_data hlen hh ht
  rcases r4 with ⟨_, he⟩ | ⟨_, _, hdata, _, hcons⟩
  · exact absurd he hne
  · have hmem := hq (d.tx_buffer.buffer.getD d.tx_buffer.tail zeroTx)
      (by rw [hcons, hdata]; simp)
    refine ⟨hmem.2, ?_⟩
    intro pin t k hk1 hk
    have := frame_ptr pin t d _ hs hne rfl hmem.1 k hk1 hk
    omega

/-- Witness of C18: the state after `TM1637_WriteDisplay(0xC0, [0x3F, 0x06], 2)` and 41
ticks (the stale byte and the data command are sent and the machine is back in `Idle`):
the three-byte frame is at the queue's tail. -/
theorem queue_well_formed_witness :
    Reachable (run (Action.writeDisplay zeroTx 0xC0 [0x3F, 0x06] 2 ::
      tickActions (fun _ => false) 0 41) initDriver).1 ∧
    (∀ f ∈ queueFrames (run (Action.writeDisplay zeroTx 0xC0 [0x3F, 0x06] 2 ::
      tickActions (fun _ => false) 0 41) initDriver).1.tx_buffer,
      1 ≤ f.tx_len ∧ f.tx_len ≤ TX_SIZE) :=
  have hr : Reachable (run (Action.writeDisplay zeroTx 0xC0 [0x3F, 0x06] 2 ::
      tickActions (fun _ => false) 0 41) initDriver).1 := reachable_run _ _ Reachable.init
  ⟨hr, (queue_well_formed _ hr).2.2.1⟩

/-! ## Theorems: completion of a frame -/

/-- C20. Bounded completion of a frame: for every frame of length `L` in 1..7 at the
queue's tail with the state machine in `Idle` at sub-step 0, `9 + 12 L` `processState`
ticks bring the state machine back to `Idle` at sub-step 0 with `tail` advanced by one
modulo 50 and `head` unchanged, and the state is not `Idle` after any smaller positive
number of ticks. -/
theorem frame_completion (pin : Nat → Bool) (t : Nat) (d : Driver) (n : Nat)
    (hs : d.current_state = TM1637_State.IDLE) (hsub : d.sub_state = 0)
    (hne : d.tx_buffer.tail ≠ d.tx_buffer.head)
    (ht : d.tx_buffer.tail < BUFFER_SIZE)
    (hlen : (d.tx_buffer.buffer.getD d.tx_buffer.tail zeroTx).tx_len = n)
    (h1 : 1 ≤ n) (h7 : n ≤ TX_SIZE) :
    (ticks pin t (9 + 12 * n) d).1.current_state = TM1637_State.IDLE ∧
    (ticks pin t (9 + 12 * n) d).1.sub_state = 0 ∧
    (ticks pin t (9 + 12 * n) d).1.tx_buffer.tail = (d.tx_buffer.tail + 1) % BUFFER_SIZE ∧
    (ticks pin t (9 + 12 * n) d).1.tx_buffer.head = d.tx_buffer.head ∧
    (∀ k, 0 < k → k < 9 + 12 * n →
      (ticks pin t k d).1.current_state ≠ TM1637_State.IDLE) := by
  have hblen : ((List.range n).map (fun j =>
      (d.tx_buffer.buffer.getD d.tx_buffer.tail zeroTx).tx_frame.getD j 0)).length = n := by
    simp
  have hnil : (List.range n).map (fun j =>
      (d.tx_buffer.buffer.getD d.tx_buffer.tail zeroTx).tx_frame.getD j 0) ≠ [] := by
    intro h; have := congrArg List.length h; simp at this; omega
  have hrun := frame_run pin t d _ hs hne (by rw [hblen]; exact hlen)
    (by
      intro j hj
      rw [hblen] at hj
      simp [List.getD_eq_getElem?_getD, hj])
    hnil
  rw [hblen] at hrun
  obtain ⟨d8, ev, hd8, hst, htail, hhead⟩ : ∃ d8 ev, ticks pin t (8 + 12 * n) d = (d8, ev) ∧
      d8.current_state = TM1637_State.DONE ∧
      d8.tx_buffer.tail = (d.tx_buffer.tail + 1) % 256 % BUFFER_SIZE ∧
      d8.tx_buffer.head = d.tx_buffer.head := ⟨_, _, hrun, rfl, rfl, rfl⟩
  have hsplit : 9 + 12 * n = (8 + 12 * n) + 1 := by omega
  rw [hsplit, ticks_add, hd8, ticks_one, done_tick _ d8 hst]
  refine ⟨rfl, rfl, ?_, hhead, ?_⟩
  · dsimp only
    rw [htail]
    simp only [BUFFER_SIZE] at ht ⊢
    omega
  · intro k hk0 hk
    by_cases hk8 : k < 8 + 12 * n
    · exact (frame_mid pin t d n hs hne hlen h1 k hk8).2 hk0
    · have hk9 : k = 8 + 12 * n := by omega
      rw [hk9, hd8, hst]
      simp

/-- Witness of C20: the three-byte frame `{0xC0, 0x3F, 0x06}` queued on the start-up
driver; 45 ticks. -/
theorem frame_completion_witness :
    (ticks (fun _ => false) 0 45
      { initDriver with
        tx_buffer := (writeBuffer initDriver.tx_buffer
          ⟨[0xC0, 0x3F, 0x06, 0, 0, 0, 0], 3⟩).2 }).1.current_state = TM1637_State.IDLE ∧
    (ticks (fun _ => false) 0 45
      { initDriver with
        tx_buffer := (writeBuffer initDriver.tx_buffer
          ⟨[0xC0, 0x3F, 0x06, 0, 0, 0, 0], 3⟩).2 }).1.tx_buffer.tail = 1 :=
  have h := frame_completion (fun _ => false) 0
    { initDriver with
      tx_buffer := (writeBuffer initDriver.tx_buffer ⟨[0xC0, 0x3F, 0x06, 0, 0, 0, 0], 3⟩).2 }
    3 (by decide) (by decide) (by decide) (by decide) (by decide) (by decide) (by decide)
  ⟨h.1, h.2.2.1⟩

/-! ## Theorems: the sampled values and the transmission -/

theorem writes_append (xs ys : List LineEvent) :
    writes (xs ++ ys) = writes xs ++ writes ys := by
  induction xs with
  | nil => rfl
  | cons x xs ih => cases x <;> simp [writes, ih]

theorem processState_forget (p q : Bool) (d1 d2 : Driver)
    (h : forgetTracker d1 = forgetTracker d2) :
    forgetTracker (processState p d1).1 = forgetTracker (processState q d2).1 ∧
    writes (processState p d1).2 = writes (processState q d2).2 := by
  obtain ⟨buf, sr, st, br, sub, txd, ptr, tim⟩ := d1
  obtain ⟨buf2, sr2, st2, br2, sub2, txd2, ptr2, tim2⟩ := d2
  simp only [forgetTracker, Driver.mk.injEq, true_and] at h
  obtain ⟨rfl, rfl, rfl, rfl, rfl, rfl, rfl⟩ := h
  cases st <;> simp only [processState] <;> split_ifs <;>
    simp [forgetTracker, writes, writeBit]

theorem ticks_forget (pin1 pin2 : Nat → Bool) (n : Nat) : ∀ (t1 t2 : Nat) (d1 d2 : Driver),
    forgetTracker d1 = forgetTracker d2 →
    forgetTracker (ticks pin1 t1 n d1).1 = forgetTracker (ticks pin2 t2 n d2).1 ∧
    writes (ticks pin1 t1 n d1).2 = writes (ticks pin2 t2 n d2).2 := by
  induction n with
  | zero => intro t1 t2 d1 d2 h; exact ⟨h, rfl⟩
  | succ n ih =>
    intro t1 t2 d1 d2 h
    obtain ⟨hd, hw⟩ := processState_forget (pin1 t1) (pin2 t2) d1 d2 h
    obtain ⟨hd2, hw2⟩ := ih (t1 + 1) (t2 + 1) _ _ hd
    rw [ticks_succ, ticks_succ]
    exact ⟨hd2, by simp only [writes_append, hw, hw2]⟩

/-- C15. A missed acknowledgment never alters transmission: for every initial driver state
(queue included) and every two courses of the level sampled on the data line, the same
number of `processState` ticks gives the same sequence of line writes and the same state,
sub-step, current frame, byte position, queue and timer status (and brightness) in both
runs; the two runs can differ only in the acknowledgment tracker. -/
theorem ack_does_not_alter_transmission (pin1 pin2 : Nat → Bool) (t n : Nat) (d : Driver) :
    writes (ticks pin1 t n d).2 = writes (ticks pin2 t n d).2 ∧
    (ticks pin1 t n d).1.current_state = (ticks pin2 t n d).1.current_state ∧
    (ticks pin1 t n d).1.sub_state = (ticks pin2 t n d).1.sub_state ∧
    (ticks pin1 t n d).1.tx_data = (ticks pin2 t n d).1.tx_data ∧
    (ticks pin1 t n d).1.tx_ptr = (ticks pin2 t n d).1.tx_ptr ∧
    (ticks pin1 t n d).1.tx_buffer = (ticks pin2 t n d).1.tx_buffer ∧
    (ticks pin1 t n d).1.timer_running = (ticks pin2 t n d).1.timer_running ∧
    (ticks pin1 t n d).1.current_brightness = (ticks pin2 t n d).1.current_brightness := by
  obtain ⟨hd, hw⟩ := ticks_forget pin1 pin2 n t t d d rfl
  simp only [forgetTracker, Driver.mk.injEq, true_and] at hd
  obtain ⟨h1, h2, h3, h4, h5, h6, h7⟩ := hd
  exact ⟨hw, h2, h4, h5, h6, h1, h7, h3⟩

/-! ## Theorems: hardware actions per tick -/

/-- C17 (counterexample). The first tick after `TM1637_WriteByte(0x40)` at start-up (state
`Start`, sub-step 0) writes two lines in one call of `processState`: data high and clock
high. So "at most one line write or line sample per call" fails. -/
theorem two_writes_in_one_tick :
    (processState false (TM1637_WriteByte zeroTx 0x40 initDriver).2).2 =
      [LineEvent.write Line.data true, LineEvent.write Line.clock true] ∧
    ¬ (processState false (TM1637_WriteByte zeroTx 0x40 initDriver).2).2.length ≤ 1 := by
  decide

/-- C17 (amended). For every driver state, a single call of `processState` performs at
most three line writes (the clock-low, data, clock-high of one bit) and at most one line
sample, and a call that samples the line does nothing else on the lines. -/
theorem hardware_actions_per_tick (p : Bool) (d : Driver) :
    (writes (processState p d).2).length ≤ 3 ∧
    (samples (processState p d).2).length ≤ 1 ∧
    (samples (processState p d).2 ≠ [] → (processState p d).2 = [LineEvent.sample p]) := by
  obtain ⟨buf, sr, st, br, sub, txd, ptr, tim⟩ := d
  cases st <;> simp only [processState] <;> split_ifs <;>
    simp [writes, samples, writeBit]

/-- Witness of C17: 13 ticks after `TM1637_WriteByte(0x40)` at start-up the machine is in
the acknowledgment window, and the next tick samples the data line and does nothing else. -/
theorem hardware_actions_per_tick_witness :
    (writes (processState true
      (run (Action.writeByte zeroTx 0x40 :: tickActions (fun _ => false) 0 13)
        initDriver).1).2).length ≤ 3 ∧
    (processState true
      (run (Action.writeByte zeroTx 0x40 :: tickActions (fun _ => false) 0 13)
        initDriver).1).2 = [LineEvent.sample true] :=
  ⟨(hardware_actions_per_tick true _).1, (hardware_actions_per_tick true _).2.2 (by decide!)⟩

/-! ## Theorems: idle power-down and wake -/

theorem sendData_wake (d : Driver) (data : TM1637_Tx)
    (h : d.current_state = TM1637_State.IDLE) :
    (sendData d data).2.current_state = TM1637_State.START ∧
    (sendData d data).2.timer_running = true := by
  simp [sendData, h]

theorem sendData_keep (d : Driver) (data : TM1637_Tx)
    (h : d.current_state = TM1637_State.START ∧ d.timer_running = true) :
    (sendData d data).2.current_state = TM1637_State.START ∧
    (sendData d data).2.timer_running = true := by
  simp [sendData, h.1, h.2]

/-- C14 (counterexample). After `TM1637_WriteByte(0x40)` at start-up the machine is in
`Done` after 40 ticks; the 41st tick, taken in `Done` with the queue empty, leaves it
`Idle` with the timer stopped; a `TM1637_WriteDisplay` call with 7 segments made then
returns false and leaves the state `Idle` and the timer stopped: this facade write call
made while the state is `Idle` neither starts the timer nor moves the state to `Start`. -/
theorem rejected_write_does_not_wake :
    (run (Action.writeByte zeroTx 0x40 :: tickActions (fun _ => false) 0 40)
      initDriver).1.current_state = TM1637_State.DONE ∧
    (run (Action.writeByte zeroTx 0x40 :: tickActions (fun _ => false) 0 41)
      initDriver).1.current_state = TM1637_State.IDLE ∧
    (TM1637_WriteDisplay zeroTx 0xC0 [1, 2, 3, 4, 5, 6, 7] 7
      (run (Action.writeByte zeroTx 0x40 :: tickActions (fun _ => false) 0 41)
        initDriver).1).2.current_state = TM1637_State.IDLE ∧
    (TM1637_WriteDisplay zeroTx 0xC0 [1, 2, 3, 4, 5, 6, 7] 7
      (run (Action.writeByte zeroTx 0x40 :: tickActions (fun _ => false) 0 41)
        initDriver).1).2.timer_running = false := by
  decide!

/-- C14 (amended). A `processState` tick taken in state `Done` sets the state to `Idle`
with sub-step 0, stops the timer when the queue is empty at that tick and leaves the timer
as it was (running) when the queue is not empty; and a facade write call made while the
state is `Idle` (`TM1637_WriteByte`, `TM1637_WriteSegments`, `TM1637_SetBrightness`,
`TM1637_DisplayOn`, `TM1637_DisplayOff`, and `TM1637_WriteDisplay` with a count below
`TX_SIZE`, that is, not rejected for its length) starts the timer and moves the state to
`Start`. -/
theorem idle_power_down_and_wake (p : Bool) (d dI : Driver) (stack stack2 : TM1637_Tx)
    (data address segment level n : Nat) (segments : List Nat)
    (hd : d.current_state = TM1637_State.DONE)
    (hI : dI.current_state = TM1637_State.IDLE) (hn : n < TX_SIZE) :
    ((processState p d).1.current_state = TM1637_State.IDLE ∧
      (processState p d).1.sub_state = 0 ∧
      (d.tx_buffer.tail = d.tx_buffer.head → (processState p d).1.timer_running = false) ∧
      (d.tx_buffer.tail ≠ d.tx_buffer.head →
        (processState p d).1.timer_running = d.timer_running)) ∧
    ((TM1637_WriteByte stack data dI).2.current_state = TM1637_State.START ∧
      (TM1637_WriteByte stack data dI).2.timer_running = true) ∧
    ((TM1637_WriteSegments stack address segment dI).2.current_state = TM1637_State.START ∧
      (TM1637_WriteSegments stack address segment dI).2.timer_running = true) ∧
    ((TM1637_WriteDisplay stack address segments n dI).2.current_state
        = TM1637_State.START ∧
      (TM1637_WriteDisplay stack address segments n dI).2.timer_running = true) ∧
    ((TM1637_SetBrightness stack stack2 level dI).current_state = TM1637_State.START ∧
      (TM1637_SetBrightness stack stack2 level dI).timer_running = true) ∧
    ((TM1637_DisplayOn stack stack2 dI).current_state = TM1637_State.START ∧
      (TM1637_DisplayOn stack stack2 dI).timer_running = true) ∧
    ((TM1637_DisplayOff stack stack2 dI).current_state = TM1637_State.START ∧
      (TM1637_DisplayOff stack stack2 dI).timer_running = true) := by
  have hguard : ¬ n ≥ TX_SIZE := by omega
  refine ⟨?_, sendData_wake dI _ hI, sendData_keep _ _ (sendData_wake dI _ hI), ?_,
    sendData_keep _ _ (sendData_wake _ _ hI), sendData_keep _ _ (sendData_wake dI _ hI),
    sendData_keep _ _ (sendData_wake dI _ hI)⟩
  · rw [done_tick p d hd]
    refine ⟨rfl, rfl, ?_, ?_⟩
    · intro he; simp [he]
    · intro he; simp [he]
  · simp only [TM1637_WriteDisplay, hguard, if_false]
    exact sendData_keep _ _ (sendData_wake dI _ hI)

/-- Witness of C14: the `Done` state reached 40 ticks after `TM1637_WriteByte(0x40)` at
start-up, and the start-up state as the `Idle` state in which the calls are made. -/
theorem idle_power_down_and_wake_witness :
    (run (Action.writeByte zeroTx 0x40 :: tickActions (fun _ => false) 0 40)
      initDriver).1.current_state = TM1637_State.DONE ∧
    (processState false
      (run (Action.writeByte zeroTx 0x40 :: tickActions (fun _ => false) 0 40)
        initDriver).1).1.timer_running = false ∧
    (TM1637_WriteDisplay zeroTx 0xC0 [0x3F, 0x06] 2 initDriver).2.current_state
      = TM1637_State.START ∧
    (TM1637_WriteDisplay zeroTx 0xC0 [0x3F, 0x06] 2 initDriver).2.timer_running = true :=
  have h := idle_power_down_and_wake false
    (run (Action.writeByte zeroTx 0x40 :: tickActions (fun _ => false) 0 40) initDriver).1
    initDriver zeroTx zeroTx 0x40 0xC0 0x3F 5 2 [0x3F, 0x06] (by decide!) (by decide)
    (by decide)
  ⟨by decide!, h.1.2.2.1 (by decide!), h.2.2.2.1⟩

/-! ## Theorems: command frames of the facade -/

theorem two_sends (d : Driver) (f1 f2 : TM1637_Tx)
    (hlen : d.tx_buffer.buffer.length = BUFFER_SIZE)
    (hh : d.tx_buffer.head < BUFFER_SIZE) (ht : d.tx_buffer.tail < BUFFER_SIZE)
    (hroom : queueCount d.tx_buffer + 2 ≤ BUFFER_SIZE - 1) :
    (sendData d f1).1 = true ∧ (sendData (sendData d f1).2 f2).1 = true ∧
    queueFrames (sendData (sendData d f1).2 f2).2.tx_buffer =
      queueFrames d.tx_buffer ++ [f1, f2] := by
  have hq0 := holds_queueFrames d.tx_buffer hlen hh ht
  have hcount : (queueFrames d.tx_buffer).length = queueCount d.tx_buffer := by
    simp [queueFrames]
  simp only [BUFFER_SIZE] at hroom
  obtain ⟨hok1, hq1⟩ := holds_write d.tx_buffer _ f1 hq0
    (by simp only [BUFFER_SIZE, hcount]; omega)
  obtain ⟨hok2, hq2⟩ := holds_write _ _ f2 hq1
    (by simp only [BUFFER_SIZE, List.length_append, List.length_singleton, hcount]; omega)
  obtain ⟨hf1, hb1⟩ := sendData_buffer d f1
  obtain ⟨hf2, hb2⟩ := sendData_buffer (sendData d f1).2 f2
  rw [hf1, hf2, hb2, hb1]
  refine ⟨hok1, hok2, ?_⟩
  rw [queueFrames_of_holds _ _ hq2]; simp

theorem payload_writeByte (stack : TM1637_Tx) (x : Nat)
    (hstack : stack.tx_frame.length = TX_SIZE) :
    payload { stack with tx_frame := stack.tx_frame.set 0 x, tx_len := 1 } = [x] := by
  obtain ⟨fr, len⟩ := stack
  simp only [TX_SIZE] at hstack
  match fr, hstack with
  | a :: rest, _ => simp [payload]

/-- C12. Frames built by `TM1637_WriteSegments`: for every address and segments byte, when
the (well-formed) queue has at least two free slots, the call returns true and the queue
afterwards is the queue before followed by exactly two frames, in this order: the
fixed-address mode command frame, whose one byte is
`WRITE_DATA | FIXED_ADDRESS | NORMAL_MODE = 0x44`, then the frame `{address, segments}` of
length 2. -/
theorem write_segments_frames (stack : TM1637_Tx) (address segments : Nat) (d : Driver)
    (hstack : stack.tx_frame.length = TX_SIZE)
    (hlen : d.tx_buffer.buffer.length = BUFFER_SIZE)
    (hh : d.tx_buffer.head < BUFFER_SIZE) (ht : d.tx_buffer.tail < BUFFER_SIZE)
    (hroom : queueCount d.tx_buffer + 2 ≤ BUFFER_SIZE - 1) :
    (TM1637_WriteSegments stack address segments d).1 = true ∧
    queueFrames (TM1637_WriteSegments stack address segments d).2.tx_buffer =
      queueFrames d.tx_buffer ++
        [{ stack with tx_frame := stack.tx_frame.set 0 0x44, tx_len := 1 },
         ⟨[address, segments, 0, 0, 0, 0, 0], 2⟩] ∧
    payload { stack with tx_frame := stack.tx_frame.set 0 0x44, tx_len := 1 } = [0x44] ∧
    payload ⟨[address, segments, 0, 0, 0, 0, 0], 2⟩ = [address, segments] ∧
    WRITE_DATA ||| FIXED_ADDRESS ||| NORMAL_MODE = 0x44 := by
  have hcmd : WRITE_DATA ||| FIXED_ADDRESS ||| NORMAL_MODE = 0x44 := by decide
  have hcall : TM1637_WriteSegments stack address segments d =
      sendData (sendData d { stack with tx_frame := stack.tx_frame.set 0 0x44, tx_len := 1 }).2
        ⟨[address, segments, 0, 0, 0, 0, 0], 2⟩ := by
    simp only [TM1637_WriteSegments, TM1637_WriteByte, hcmd]
    rfl
  obtain ⟨_, h2, h3⟩ := two_sends d
    { stack with tx_frame := stack.tx_frame.set 0 0x44, tx_len := 1 }
    ⟨[address, segments, 0, 0, 0, 0, 0], 2⟩ hlen hh ht hroom
  rw [hcall]
  exact ⟨h2, h3, payload_writeByte stack 0x44 hstack, rfl, hcmd⟩

/-- Witness of C12: `TM1637_WriteSegments(0xC1, 0x5B)` on the start-up driver. -/
theorem write_segments_frames_witness :
    (TM1637_WriteSegments zeroTx 0xC1 0x5B initDriver).1 = true ∧
    (queueFrames (TM1637_WriteSegments zeroTx 0xC1 0x5B initDriver).2.tx_buffer).map payload
      = [[0x44], [0xC1, 0x5B]] := by
  have h := write_segments_frames zeroTx 0xC1 0x5B initDriver (by decide) (by decide)
    (by decide) (by decide) (by decide)
  refine ⟨h.1, ?_⟩
  rw [h.2.1]; decide

/-- C13 (evidence). With 48 frames outstanding (48 calls of `TM1637_WriteByte` at start-up,
no tick in between) the queue has one free slot: `TM1637_WriteSegments(0xC0, 0x3F)` and
`TM1637_WriteDisplay(0xC0, [0x3F], 1)` each return false, yet the queue afterwards holds
49 frames, the last one the mode command frame of the failed call. -/
theorem failed_call_leaves_command_frame :
    queueCount (run (List.replicate 48 (Action.writeByte zeroTx 0x8D))
      initDriver).1.tx_buffer = 48 ∧
    (TM1637_WriteSegments zeroTx 0xC0 0x3F
      (run (List.replicate 48 (Action.writeByte zeroTx 0x8D)) initDriver).1).1 = false ∧
    ((queueFrames (TM1637_WriteSegments zeroTx 0xC0 0x3F
      (run (List.replicate 48 (Action.writeByte zeroTx 0x8D))
        initDriver).1).2.tx_buffer).map payload).drop 47 = [[0x8D], [0x44]] ∧
    (TM1637_WriteDisplay zeroTx 0xC0 [0x3F] 1
      (run (List.replicate 48 (Action.writeByte zeroTx 0x8D)) initDriver).1).1 = false ∧
    ((queueFrames (TM1637_WriteDisplay zeroTx 0xC0 [0x3F] 1
      (run (List.replicate 48 (Action.writeByte zeroTx 0x8D))
        initDriver).1).2.tx_buffer).map payload).drop 47 = [[0x8D], [0x40]] := by
  decide!

theorem sendData_brightness (d : Driver) (data : TM1637_Tx) :
    (sendData d data).2.current_brightness = d.current_brightness := by
  simp only [sendData]
  split_ifs <;> rfl

theorem processState_brightness (p : Bool) (d : Driver) :
    (processState p d).1.current_brightness = d.current_brightness := by
  obtain ⟨buf, sr, st, br, sub, txd, ptr, tim⟩ := d
  cases st <;> simp only [processState] <;> split_ifs <;> rfl

theorem step_brightness (a : Action) (d : Driver) :
    (step a d).1.current_brightness = lastBrightness [a] d.current_brightness := by
  cases a with
  | tick pin =>
    simp only [step, lastBrightness]
    split_ifs
    · exact processState_brightness pin d
    · rfl
  | writeByte stack data => simp [step, lastBrightness, TM1637_WriteByte, sendData_brightness]
  | writeSegments stack address segments =>
    simp [step, lastBrightness, TM1637_WriteSegments, TM1637_WriteByte, sendData_brightness]
  | writeDisplay stack address segments n =>
    simp only [step, lastBrightness, TM1637_WriteDisplay]
    split_ifs
    · rfl
    · simp [TM1637_WriteByte, sendData_brightness]
  | setBrightness s1 s2 b =>
    simp [step, lastBrightness, TM1637_SetBrightness, TM1637_WriteByte, sendData_brightness]
  | displayOn s1 s2 =>
    simp [step, lastBrightness, TM1637_DisplayOn, TM1637_WriteByte, sendData_brightness]
  | displayOff s1 s2 =>
    simp [step, lastBrightness, TM1637_DisplayOff, TM1637_WriteByte, sendData_brightness]

theorem run_brightness (acts : List Action) : ∀ (d : Driver),
    (run acts d).1.current_brightness = lastBrightness acts d.current_brightness := by
  induction acts with
  | nil => intro d; rfl
  | cons a as ih =>
    intro d
    rw [run_cons, ih, step_brightness]
    cases a <;> rfl

/-- C11. Brightness and on/off commands: in the state reached from start-up by any
sequence of ticks and write calls, when the queue has at least two free slots, each of
`TM1637_SetBrightness(level)` with `level` in 0..7, `TM1637_DisplayOn()` and
`TM1637_DisplayOff()` appends exactly two frames of length 1 to the queue: first the
data-command frame `{0x40}`, then the control frame, which is `{0x88 | level}` for
`TM1637_SetBrightness`, `{0x88 | c}` for `TM1637_DisplayOn` and `{0x80 | c}` for
`TM1637_DisplayOff`, where `c` is the brightness most recently passed to
`TM1637_SetBrightness` (`0x85` if none was). -/
theorem brightness_frames (acts : List Action) (s1 s2 : TM1637_Tx) (level : Nat)
    (hs1 : s1.tx_frame.length = TX_SIZE) (hs2 : s2.tx_frame.length = TX_SIZE)
    (hroom : queueCount (run acts initDriver).1.tx_buffer + 2 ≤ BUFFER_SIZE - 1)
    (hlevel : level ≤ 7) :
    ((queueFrames (TM1637_SetBrightness s1 s2 level
        (run acts initDriver).1).tx_buffer).map payload =
      (queueFrames (run acts initDriver).1.tx_buffer).map payload ++
        [[0x40], [0x88 ||| level]] ∧
     (queueFrames (TM1637_SetBrightness s1 s2 level
        (run acts initDriver).1).tx_buffer).map TM1637_Tx.tx_len =
      (queueFrames (run acts initDriver).1.tx_buffer).map TM1637_Tx.tx_len ++ [1, 1]) ∧
    ((queueFrames (TM1637_DisplayOn s1 s2 (run acts initDriver).1).tx_buffer).map payload =
      (queueFrames (run acts initDriver).1.tx_buffer).map payload ++
        [[0x40], [0x88 ||| lastBrightness acts 0x85]] ∧
     (queueFrames (TM1637_DisplayOn s1 s2 (run acts initDriver).1).tx_buffer).map
        TM1637_Tx.tx_len =
      (queueFrames (run acts initDriver).1.tx_buffer).map TM1637_Tx.tx_len ++ [1, 1]) ∧
    ((queueFrames (TM1637_DisplayOff s1 s2 (run acts initDriver).1).tx_buffer).map payload =
      (queueFrames (run acts initDriver).1.tx_buffer).map payload ++
        [[0x40], [0x80 ||| lastBrightness acts 0x85]] ∧
     (queueFrames (TM1637_DisplayOff s1 s2 (run acts initDriver).1).tx_buffer).map
        TM1637_Tx.tx_len =
      (queueFrames (run acts initDriver).1.tx_buffer).map TM1637_Tx.tx_len ++ [1, 1]) := by
  obtain ⟨hlen, hh, ht, _, _, _⟩ := reachable_wf _ (reachable_run acts _ Reachable.init)
  have hbr : (run acts initDriver).1.current_brightness = lastBrightness acts 0x85 :=
    run_brightness acts initDriver
  have hcmd : WRITE_DATA ||| ADDRESS_AI ||| NORMAL_MODE = 0x40 := by decide
  have key : ∀ (d : Driver) (x : Nat), d.tx_buffer = (run acts initDriver).1.tx_buffer →
      (queueFrames (sendData (sendData d
          { s1 with tx_frame := s1.tx_frame.set 0 0x40, tx_len := 1 }).2
          { s2 with tx_frame := s2.tx_frame.set 0 x, tx_len := 1 }).2.tx_buffer).map payload =
        (queueFrames (run acts initDriver).1.tx_buffer).map payload ++ [[0x40], [x]] ∧
      (queueFrames (sendData (sendData d
          { s1 with tx_frame := s1.tx_frame.set 0 0x40, tx_len := 1 }).2
          { s2 with tx_frame := s2.tx_frame.set 0 x, tx_len := 1 }).2.tx_buffer).map
          TM1637_Tx.tx_len =
        (queueFrames (run acts initDriver).1.tx_buffer).map TM1637_Tx.tx_len ++ [1, 1] := by
    intro d x hd
    obtain ⟨_, _, h3⟩ := two_sends d
      { s1 with tx_frame := s1.tx_frame.set 0 0x40, tx_len := 1 }
      { s2 with tx_frame := s2.tx_frame.set 0 x, tx_len := 1 }
      (by rw [hd]; exact hlen) (by rw [hd]; exact hh) (by rw [hd]; exact ht)
      (by rw [hd]; exact hroom)
    rw [h3, hd]
    simp only [List.map_append, List.map_cons, List.map_nil, payload_writeByte s1 0x40 hs1,
      payload_writeByte s2 x hs2, and_self]
  refine ⟨?_, ?_, ?_⟩
  · simpa only [TM1637_SetBrightness, TM1637_WriteByte, hcmd, BRIGHTNESS_ON] using
      key { (run acts initDriver).1 with current_brightness := level } (0x88 ||| level) rfl
  · simpa only [TM1637_DisplayOn, TM1637_WriteByte, hcmd, BRIGHTNESS_ON, sendData_brightness,
      hbr] using key (run acts initDriver).1 (0x88 ||| lastBrightness acts 0x85) rfl
  · simpa only [TM1637_DisplayOff, TM1637_WriteByte, hcmd, BRIGHTNESS_OFF, sendData_brightness,
      hbr] using key (run acts initDriver).1 (0x80 ||| lastBrightness acts 0x85) rfl

/-- Witness of C11: `TM1637_SetBrightness(5)` at start-up gives `{0x40}` then `{0x8D}`. -/
theorem brightness_frames_witness :
    (queueFrames (TM1637_SetBrightness zeroTx zeroTx 5 initDriver).tx_buffer).map payload =
      [[0x40], [0x8D]] ∧
    (queueFrames (TM1637_SetBrightness zeroTx zeroTx 5 initDriver).tx_buffer).map
      TM1637_Tx.tx_len = [1, 1] :=
  (brightness_frames [] zeroTx zeroTx 5 (by decide) (by decide) (by decide) (by decide)).1

/-! ## Theorems: producers that preempt one another -/

/-- Run without interruption, the four statements are `writeBuffer`. -/
theorem writeSteps_whole (data : TM1637_Tx) (b : TM1637_Buffer) :
    ((writeSteps data 4 writeCall0 b).1.result, (writeSteps data 4 writeCall0 b).2) =
      writeBuffer b data := by
  by_cases h : ((b.head + 1) % BUFFER_SIZE) % 256 = b.tail
  · simp [writeSteps, writeStep, writeCall0, writeBuffer, h]
  · simp [writeSteps, writeStep, writeCall0, writeBuffer, h]

/-- C16 (counterexample). On the empty start-up queue, a `writeBuffer` call with frame
`{0x11}` is interrupted by a whole `writeBuffer` call with frame `{0x22}`, after its first,
its second or its third statement. Each time both calls return true, but the queue
afterwards holds one frame only, `{0x22}`: the frame `{0x11}` is lost, and `head` has
advanced by one for two successful enqueues. -/
theorem preempted_enqueue_loses_frame :
    ((writeBufferPreempted 1 frame11 frame22 initDriver.tx_buffer).1 = true ∧
      (writeBufferPreempted 1 frame11 frame22 initDriver.tx_buffer).2.1 = true ∧
      queueFrames (writeBufferPreempted 1 frame11 frame22 initDriver.tx_buffer).2.2
        = [frame22] ∧
      queueCount (writeBufferPreempted 1 frame11 frame22 initDriver.tx_buffer).2.2 = 1) ∧
    ((writeBufferPreempted 2 frame11 frame22 initDriver.tx_buffer).1 = true ∧
      (writeBufferPreempted 2 frame11 frame22 initDriver.tx_buffer).2.1 = true ∧
      queueFrames (writeBufferPreempted 2 frame11 frame22 initDriver.tx_buffer).2.2
        = [frame22] ∧
      queueCount (writeBufferPreempted 2 frame11 frame22 initDriver.tx_buffer).2.2 = 1) ∧
    ((writeBufferPreempted 3 frame11 frame22 initDriver.tx_buffer).1 = true ∧
      (writeBufferPreempted 3 frame11 frame22 initDriver.tx_buffer).2.1 = true ∧
      queueFrames (writeBufferPreempted 3 frame11 frame22 initDriver.tx_buffer).2.2
        = [frame22] ∧
      queueCount (writeBufferPreempted 3 frame11 frame22 initDriver.tx_buffer).2.2 = 1) := by
  decide!

theorem accepted_general (ops : List QueueOp) : ∀ (b : TM1637_Buffer),
    b.buffer.length = BUFFER_SIZE → b.head < BUFFER_SIZE → b.tail < BUFFER_SIZE →
    queueFrames b ++ acceptedFrames ops b =
      readFrames (runQueue ops b).1 ++ queueFrames (runQueue ops b).2 := by
  induction ops with
  | nil => intro b _ _ _; simp [acceptedFrames, runQueue, readFrames]
  | cons op ops ih =>
    intro b hlen hh ht
    cases op with
    | write data =>
      obtain ⟨h1, h2, h3, h4⟩ := queue_write b data hlen hh ht
      have ih2 := ih (writeBuffer b data).2 h1 h2 (by rw [h3]; exact ht)
      simp only [acceptedFrames, runQueue, readFrames]
      rcases h4 with ⟨hw, _⟩ | ⟨hok, _, hq⟩
      · rw [hw] at ih2 ⊢
        simpa using ih2
      · rw [hq] at ih2
        rw [hok]
        simpa using ih2
    | read dest =>
      obtain ⟨h1, h2, h3, h4⟩ := queue_read b dest hlen hh ht
      have ih2 := ih (readBuffer b dest).2.1 h1 (by rw [h2]; exact hh) h3
      simp only [acceptedFrames, runQueue]
      rcases h4 with ⟨hr, _⟩ | ⟨hok, _, _, _, hcons⟩
      · rw [hr] at ih2 ⊢
        simpa [readFrames] using ih2
      · rw [hcons, hok]
        simp only [readFrames, List.cons_append, List.cons.injEq, true_and]
        exact ih2

theorem processState_buffer (p : Bool) (d : Driver)
    (hs : d.current_state ≠ TM1637_State.IDLE) :
    (processState p d).1.tx_buffer = d.tx_buffer := by
  obtain ⟨buf, sr, st, br, sub, txd, ptr, tim⟩ := d
  simp only at hs
  cases st
  case IDLE => exact absurd rfl hs
  all_goals
    simp only [processState]
    split_ifs <;> rfl

/-- C16 (amended). When the enqueue calls do not preempt one another (every `writeBuffer`
and `readBuffer` call on the queue runs to its end before the next one starts), starting
from an empty queue: the frames accepted by `writeBuffer` are exactly the frames yielded
by `readBuffer` so far followed by the frames still in the queue, in order, so no frame is
lost or duplicated; the number of queued frames derived from `head` and `tail` is the
number of successful enqueues minus the number of successful dequeues; and a tick of the
consumer taken mid-frame (state not `Idle`) leaves the queue as it is. -/
theorem whole_calls_keep_frames (b : TM1637_Buffer) (ops : List QueueOp)
    (hlen : b.buffer.length = BUFFER_SIZE) (hempty : b.head = b.tail)
    (hlt : b.tail < BUFFER_SIZE) :
    acceptedFrames ops b =
      readFrames (runQueue ops b).1 ++ queueFrames (runQueue ops b).2 ∧
    queueCount (runQueue ops b).2 + (readFrames (runQueue ops b).1).length =
      (acceptedFrames ops b).length ∧
    (∀ (p : Bool) (d : Driver), d.current_state ≠ TM1637_State.IDLE →
      (processState p d).1.tx_buffer = d.tx_buffer) := by
  have h := accepted_general ops b hlen (by rw [hempty]; exact hlt) hlt
  have h0 : queueFrames b = [] := by
    simp [queueFrames, queueCount, hempty, BUFFER_SIZE]
  rw [h0, List.nil_append] at h
  refine ⟨h, ?_, processState_buffer⟩
  rw [h, List.length_append]
  simp [queueFrames, Nat.add_comm]

/-- Witness of C16: two frames written, one read, one more written, on the start-up
queue. -/
theorem whole_calls_keep_frames_witness :
    acceptedFrames
      [QueueOp.write ⟨[0x11, 0, 0, 0, 0, 0, 0], 1⟩, QueueOp.write ⟨[0x22, 0, 0, 0, 0, 0, 0], 1⟩,
        QueueOp.read zeroTx, QueueOp.write ⟨[0x33, 0, 0, 0, 0, 0, 0], 1⟩]
      initDriver.tx_buffer =
      readFrames (runQueue
        [QueueOp.write ⟨[0x11, 0, 0, 0, 0, 0, 0], 1⟩,
          QueueOp.write ⟨[0x22, 0, 0, 0, 0, 0, 0], 1⟩,
          QueueOp.read zeroTx, QueueOp.write ⟨[0x33, 0, 0, 0, 0, 0, 0], 1⟩]
        initDriver.tx_buffer).1 ++
      queueFrames (runQueue
        [QueueOp.write ⟨[0x11, 0, 0, 0, 0, 0, 0], 1⟩,
          QueueOp.write ⟨[0x22, 0, 0, 0, 0, 0, 0], 1⟩,
          QueueOp.read zeroTx, QueueOp.write ⟨[0x33, 0, 0, 0, 0, 0, 0], 1⟩]
        initDriver.tx_buffer).2 :=
  (whole_calls_keep_frames initDriver.tx_buffer _ (by decide) (by decide) (by decide)).1

end TM1637
